import Mathlib

/-!
Shallow embedding of the Bookstore Management System REST API
(services `authService`, `bookService`, `orderService` and the route
handlers under `src/app/api`), together with proofs about the
order-placement / inventory-decrement core.

Conventions of the embedding:
* The Prisma-backed database is a `DB` record of lists; `update where id`
  is modelled as a map over the list (ids of books are kept unique along
  reachable states, mirroring the `@id` uniqueness of the schema).
* Thrown `Error(message)` values are modelled by the inductive `Err`;
  `Err.message` reproduces the exact message strings of the source, and the
  HTTP mapping of the orders route dispatches on substrings of the message
  exactly as `route.ts` does with `message.includes(...)`.
* `db.$transaction(...)` is modelled as: run the body as a state-passing
  computation; on success commit the new state, on a thrown error the
  whole call returns the error and the caller keeps the original state
  (Prisma rolls the transaction back).
* Numbers: prices are `ℚ` (exact decimal arithmetic), stock counts and
  quantities are `Int` (the database column is a signed integer).
  Generated ids (cuid) are modelled by explicit fresh-id arguments for
  books and by a `nextId` counter for orders and users. Timestamps are
  omitted.
-/

namespace Bookstore

inductive Role where
  | CUSTOMER
  | ADMIN
  deriving DecidableEq, Repr

inductive OrderStatus where
  | PENDING
  | SHIPPED
  | DELIVERED
  | CANCELLED
  deriving DecidableEq, Repr

inductive PaymentStatus where
  | PENDING
  | PAID
  deriving DecidableEq, Repr

/-- Error values thrown by the services (`throw new Error(message)`).
Each constructor records exactly the data interpolated into the
corresponding message string of the source. -/
inductive Err where
  /-- 'Order must contain at least one item' -/
  | orderMustContainItem
  /-- 'Invalid order item' -/
  | invalidOrderItem
  /-- `Book with ID ${item.bookId} not found` (createOrder) -/
  | bookNotFoundWithId (bookId : String)
  /-- `Insufficient stock for book "${book.title}". Available: ..., Requested: ...` -/
  | insufficientStock (title : String) (available : Int) (requested : Int)
  /-- 'Stock validation failed during order processing. Please try again.'
      (thrown inside the `db.$transaction` of createOrder) -/
  | stockValidationFailed
  /-- 'Book not found' (bookService) -/
  | bookNotFound
  /-- 'Insufficient stock' (bookService.decrementStock) -/
  | insufficientStockPlain
  /-- 'A book with this ISBN already exists' -/
  | isbnExists
  /-- 'Cannot delete book that is referenced in orders' -/
  | bookReferencedInOrders
  /-- 'Order not found' -/
  | orderNotFound
  /-- 'You can only cancel your own orders' -/
  | cancelForbidden
  /-- 'Only pending orders can be cancelled' -/
  | cancelInvalidState
  /-- 'Email already registered' -/
  | emailAlreadyRegistered
  /-- route-level 400: missing required fields -/
  | missingFields
  /-- route-level 400: invalid email format -/
  | invalidEmailFormat
  /-- route-level 400: password shorter than 6 characters -/
  | passwordTooShort
  /-- route-level 400: negative price -/
  | negativePrice
  /-- route-level 400: negative stock quantity -/
  | negativeStockQuantity
  /-- route-level 400: empty update body -/
  | emptyUpdateBody
  /-- Prisma P2025: `update` on a record that does not exist -/
  | recordToUpdateNotFound
  deriving DecidableEq, Repr

/-- Catalog item (Prisma `Book`; timestamps omitted, `authors` kept as the
stored JSON string). -/
structure Book where
  id : String
  title : String
  authors : String
  genre : String
  isbn : String
  price : ℚ
  description : Option String
  stockQuantity : Int
  imageUrl : Option String
  deriving DecidableEq, Repr

/-- Prisma `OrderItem` (its own generated id and timestamps omitted). -/
structure OrderItem where
  bookId : String
  quantity : Int
  unitPrice : ℚ
  subtotal : ℚ
  deriving DecidableEq, Repr

/-- Prisma `Order` with its owned line items. -/
structure Order where
  id : Nat
  userId : String
  items : List OrderItem
  totalPrice : ℚ
  orderStatus : OrderStatus
  paymentStatus : PaymentStatus
  deriving DecidableEq, Repr

/-- Prisma `User` (timestamps omitted). -/
structure User where
  id : Nat
  name : String
  email : String
  password : String
  role : Role
  deriving DecidableEq, Repr

/-- The database state. -/
structure DB where
  books : List Book
  orders : List Order
  users : List User
  nextId : Nat
  deriving DecidableEq, Repr

def DB.empty : DB := { books := [], orders := [], users := [], nextId := 0 }

/-! ### Store primitives (`db.book.findUnique` etc.) -/

/-- `db.book.findUnique({ where: { id } })`. -/
def getBookById (id : String) (db : DB) : Option Book :=
  db.books.find? (fun b => b.id == id)

/-- `db.book.findUnique({ where: { isbn } })`. -/
def getBookByIsbn (isbn : String) (db : DB) : Option Book :=
  db.books.find? (fun b => b.isbn == isbn)

/-- `db.order.findUnique({ where: { id } })`. -/
def findOrder (id : Nat) (db : DB) : Option Order :=
  db.orders.find? (fun o => o.id == id)

/-- `db.user.findUnique({ where: { email } })`. -/
def findUserByEmail (email : String) (db : DB) : Option User :=
  db.users.find? (fun u => u.email == email)

/-- `book.update({ where: { id }, data: { stockQuantity: { decrement: q } } })` —
the unconditional atomic decrement update. -/
def bookStockDecrement (id : String) (q : Int) (db : DB) : DB :=
  { db with books := db.books.map (fun b =>
      if b.id == id then { b with stockQuantity := b.stockQuantity - q } else b) }

/-- `book.update({ where: { id }, data: { stockQuantity: { increment: q } } })`. -/
def bookStockIncrement (id : String) (q : Int) (db : DB) : DB :=
  { db with books := db.books.map (fun b =>
      if b.id == id then { b with stockQuantity := b.stockQuantity + q } else b) }

/-- Replace the order with the given id. -/
def setOrder (id : Nat) (o' : Order) (db : DB) : DB :=
  { db with orders := db.orders.map (fun o => if o.id == id then o' else o) }

/-- Stock of a book as seen through `getBookById`. -/
def stockOf (id : String) (db : DB) : Option Int :=
  (getBookById id db).map (fun b => b.stockQuantity)

/-! ### bookService -/

/-- `checkStockAvailability(bookId, quantity)`: advisory availability
check; throws 'Book not found' if the book is missing. -/
def checkStockAvailability (bookId : String) (quantity : Int) (db : DB) :
    Except Err Bool :=
  match getBookById bookId db with
  | none => .error .bookNotFound
  | some b => .ok (decide (b.stockQuantity ≥ quantity))

/-- First storage access of `decrementStock`: the `findUnique` that reads
`stockQuantity`. -/
def decrementStockRead (bookId : String) (db : DB) : Option Int :=
  (getBookById bookId db).map (fun b => b.stockQuantity)

/-- Second storage access of `decrementStock`: the *unconditional*
`update { stockQuantity: { decrement: quantity } }`. -/
def decrementStockWrite (bookId : String) (quantity : Int) (db : DB) : DB :=
  bookStockDecrement bookId quantity db

/-- `decrementStock(bookId, quantity)`: a separate read (`findUnique`),
an in-process check, and then the unconditional decrement write.  The
function is the sequential composition of `decrementStockRead` and
`decrementStockWrite`; the two are distinct storage operations in the
source (two separate awaited Prisma calls, no transaction). -/
def decrementStock (bookId : String) (quantity : Int) (db : DB) :
    Except Err DB :=
  match decrementStockRead bookId db with
  | none => .error .bookNotFound
  | some stock =>
    if stock < quantity then .error .insufficientStockPlain
    else .ok (decrementStockWrite bookId quantity db)

/-- `createBook(dto)` (service).  The generated cuid is passed in as
`newId`; the caller (the step relation) requires it to be fresh, which is
what the database id generator guarantees. -/
structure CreateBookDTO where
  title : String
  authors : String
  genre : String
  isbn : String
  price : ℚ
  description : Option String
  stockQuantity : Int
  imageUrl : Option String
  deriving DecidableEq, Repr

def createBook (newId : String) (dto : CreateBookDTO) (db : DB) :
    Except Err (Book × DB) :=
  match getBookByIsbn dto.isbn db with
  | some _ => .error .isbnExists
  | none =>
    let b : Book :=
      { id := newId, title := dto.title, authors := dto.authors,
        genre := dto.genre, isbn := dto.isbn, price := dto.price,
        description := dto.description, stockQuantity := dto.stockQuantity,
        imageUrl := dto.imageUrl }
    .ok (b, { db with books := db.books ++ [b] })

structure UpdateBookDTO where
  title : Option String
  authors : Option String
  genre : Option String
  isbn : Option String
  price : Option ℚ
  description : Option String
  stockQuantity : Option Int
  imageUrl : Option String
  deriving DecidableEq, Repr

/-- Apply the `if (dto.x !== undefined) updateData.x = dto.x` block. -/
def applyBookUpdate (dto : UpdateBookDTO) (b : Book) : Book :=
  { b with
    title := dto.title.getD b.title,
    authors := dto.authors.getD b.authors,
    genre := dto.genre.getD b.genre,
    isbn := dto.isbn.getD b.isbn,
    price := dto.price.getD b.price,
    description := match dto.description with
      | some d => some d
      | none => b.description,
    stockQuantity := dto.stockQuantity.getD b.stockQuantity,
    imageUrl := match dto.imageUrl with
      | some u => some u
      | none => b.imageUrl }

/-- `updateBook(id, dto)` (service). -/
def updateBook (id : String) (dto : UpdateBookDTO) (db : DB) :
    Except Err (Book × DB) :=
  match getBookById id db with
  | none => .error .bookNotFound
  | some existing =>
    let isbnConflict : Bool :=
      match dto.isbn with
      | some i => i ≠ existing.isbn ∧ (getBookByIsbn i db).isSome
      | none => false
    if isbnConflict then .error .isbnExists
    else
      let b' := applyBookUpdate dto existing
      .ok (b', { db with books := db.books.map (fun b =>
        if b.id == id then applyBookUpdate dto b else b) })

/-- `db.orderItem.count({ where: { bookId } })`. -/
def countOrderItemsForBook (bookId : String) (db : DB) : Nat :=
  (db.orders.map (fun o => (o.items.filter (fun it => it.bookId == bookId)).length)).sum

/-- `deleteBook(id)` (service): refuses to delete a book that is
referenced by any order item. -/
def deleteBook (id : String) (db : DB) : Except Err DB :=
  match getBookById id db with
  | none => .error .bookNotFound
  | some _ =>
    if countOrderItemsForBook id db > 0 then .error .bookReferencedInOrders
    else .ok { db with books := db.books.filter (fun b => ¬ b.id == id) }

/-! ### authService and the register route -/

structure CreateUserDTO where
  name : String
  email : String
  password : String
  deriving DecidableEq, Repr

/-- bcrypt hashing is an external library call (`bcryptjs`); it is
modelled as an abstract tagging function. -/
def hashPassword (password : String) : String := "bcrypt$" ++ password

/-- `registerUser(dto)`: rejects an already-registered email and creates
the user with the hard-coded role `'CUSTOMER' // Default role`. -/
def registerUser (dto : CreateUserDTO) (db : DB) : Except Err (User × DB) :=
  match findUserByEmail dto.email db with
  | some _ => .error .emailAlreadyRegistered
  | none =>
    let u : User :=
      { id := db.nextId, name := dto.name, email := dto.email,
        password := hashPassword dto.password, role := .CUSTOMER }
    .ok (u, { db with users := db.users ++ [u], nextId := db.nextId + 1 })

/-- The JSON body a client may POST to `/api/register`.  A client may
include a `role` field; the route never reads it. -/
structure RegisterBody where
  name : String
  email : String
  password : String
  role : Option Role
  deriving DecidableEq, Repr

def noSpaceOrAt (s : List Char) : Bool :=
  s.all (fun c => ¬ c.isWhitespace ∧ c ≠ '@')

/-- Split a character list at every occurrence of the separator
(single-character `String.split`). -/
def splitAll : List Char → Char → List (List Char)
  | [], _ => [[]]
  | x :: xs, c =>
    let r := splitAll xs c
    if x == c then [] :: r
    else
      match r with
      | [] => [[x]]
      | h :: t => (x :: h) :: t

/-- The route's email regex `^[^\s@]+@[^\s@]+\.[^\s@]+$`: exactly one `@`,
a nonempty local part, and a domain containing a dot that is neither its
first nor its last character, with no whitespace anywhere. -/
def emailFormatValid (s : String) : Bool :=
  match splitAll s.toList '@' with
  | [l, d] =>
    ¬ l.isEmpty ∧ noSpaceOrAt l ∧ noSpaceOrAt d ∧
      ((d.drop 1).dropLast).contains '.'
  | _ => false

/-- `body.email.toLowerCase().trim()`. -/
def normalizeEmail (s : String) : String :=
  String.mk
    ((((s.toList.map Char.toLower).dropWhile Char.isWhitespace).reverse.dropWhile
        Char.isWhitespace).reverse)

/-- `POST /api/register`: field presence, email format and password
length checks, then `registerUser` on the normalised email. -/
def registerRoute (body : RegisterBody) (db : DB) : Except Err (User × DB) :=
  if body.name = "" ∨ body.email = "" ∨ body.password = "" then
    .error .missingFields
  else if ¬ emailFormatValid body.email then .error .invalidEmailFormat
  else if body.password.length < 6 then .error .passwordTooShort
  else
    registerUser
      { name := body.name, email := normalizeEmail body.email,
        password := body.password } db

/-! ### Book routes (`/api/books`, `/api/books/[id]`) -/

/-- `POST /api/books`: required-field check (JS falsiness: an absent or
empty `title`/`genre`/`isbn` and a `price` of `0` fail `!body.x`;
`stockQuantity` is compared against `undefined` so `0` is allowed),
then the non-negativity guards, then `createBook`. -/
def createBookRoute (newId : String) (dto : CreateBookDTO) (db : DB) :
    Except Err (Book × DB) :=
  if dto.title = "" ∨ dto.genre = "" ∨ dto.isbn = "" ∨ dto.price = 0 then
    .error .missingFields
  else if dto.price < 0 then .error .negativePrice
  else if dto.stockQuantity < 0 then .error .negativeStockQuantity
  else createBook newId dto db

/-- Is every optional field absent? (the route's empty-body check). -/
def UpdateBookDTO.isEmpty (dto : UpdateBookDTO) : Bool :=
  dto.title.isNone ∧ dto.authors.isNone ∧ dto.genre.isNone ∧
    dto.isbn.isNone ∧ dto.price.isNone ∧ dto.description.isNone ∧
    dto.stockQuantity.isNone ∧ dto.imageUrl.isNone

/-- `PUT /api/books/[id]`: empty-body check and the non-negativity guards
on a provided `price` / `stockQuantity`, then `updateBook`. -/
def updateBookRoute (id : String) (dto : UpdateBookDTO) (db : DB) :
    Except Err (Book × DB) :=
  if dto.isEmpty then .error .emptyUpdateBody
  else if (match dto.price with | some p => decide (p < 0) | none => false : Bool) then
    .error .negativePrice
  else if (match dto.stockQuantity with | some s => decide (s < 0) | none => false : Bool) then
    .error .negativeStockQuantity
  else updateBook id dto db

/-! ### orderService -/

structure CreateOrderItemDTO where
  bookId : String
  quantity : Int
  deriving DecidableEq, Repr

structure CreateOrderDTO where
  items : List CreateOrderItemDTO
  deriving DecidableEq, Repr

/-- The validation loop of `createOrder` (before the transaction): for
each requested line item, validate its shape (`!item.bookId` is JS
falsiness of the string, `!item.quantity || item.quantity <= 0` collapses
to `quantity ≤ 0` on integers), resolve the book, run the advisory
`checkStockAvailability`, and accumulate the order items (price
snapshot, subtotal) and the running total.  Returns the items in request
order together with `totalPrice`. -/
def buildOrderItems (items : List CreateOrderItemDTO) (db : DB) :
    Except Err (List OrderItem × ℚ) :=
  match items with
  | [] => .ok ([], 0)
  | item :: rest =>
    if item.bookId = "" ∨ item.quantity ≤ 0 then .error .invalidOrderItem
    else
      match getBookById item.bookId db with
      | none => .error (.bookNotFoundWithId item.bookId)
      | some book =>
        match checkStockAvailability item.bookId item.quantity db with
        | .error e => .error e
        | .ok isAvailable =>
          if ¬ isAvailable then
            .error (.insufficientStock book.title book.stockQuantity item.quantity)
          else
            match buildOrderItems rest db with
            | .error e => .error e
            | .ok (ois, total) =>
              let subtotal := book.price * (item.quantity : ℚ)
              .ok ({ bookId := item.bookId, quantity := item.quantity,
                     unitPrice := book.price, subtotal := subtotal } :: ois,
                   subtotal + total)

/-- The decrement loop inside `db.$transaction`: re-read each book's
stock, throw the generic 'Stock validation failed during order
processing. Please try again.' if the book vanished or its stock is now
insufficient, otherwise apply the atomic decrement update. -/
def decrementLoop (items : List OrderItem) (db : DB) : Except Err DB :=
  match items with
  | [] => .ok db
  | item :: rest =>
    match getBookById item.bookId db with
    | none => .error .stockValidationFailed
    | some book =>
      if book.stockQuantity < item.quantity then .error .stockValidationFailed
      else decrementLoop rest (bookStockDecrement item.bookId item.quantity db)

/-- `createOrder(userId, dto)`: empty-items check, the validation /
advisory-check loop, then the transaction (decrement every book, insert
the order).  On any thrown error the transaction is rolled back and the
caller's state is unchanged, which the `Except` result models: a new
`DB` is produced only on success. -/
def createOrder (userId : String) (dto : CreateOrderDTO) (db : DB) :
    Except Err (Order × DB) :=
  if dto.items.isEmpty then .error .orderMustContainItem
  else
    match buildOrderItems dto.items db with
    | .error e => .error e
    | .ok (orderItems, totalPrice) =>
      match decrementLoop orderItems db with
      | .error e => .error e
      | .ok db1 =>
        let o : Order :=
          { id := db1.nextId, userId := userId, items := orderItems,
            totalPrice := totalPrice, orderStatus := .PENDING,
            paymentStatus := .PENDING }
        .ok (o, { db1 with orders := db1.orders ++ [o], nextId := db1.nextId + 1 })

/-- The database state after a `createOrder` call (an error leaves the
state unchanged: nothing before the transaction writes, and the
transaction rolls back on a throw). -/
def createOrderState (userId : String) (dto : CreateOrderDTO) (db : DB) : DB :=
  match createOrder userId dto db with
  | .ok (_, db') => db'
  | .error _ => db

/-- The restock loop inside the `db.$transaction` of `cancelOrder`:
`tx.book.update({ data: { stockQuantity: { increment } } })` for every
line item; Prisma's `update` throws if the record does not exist. -/
def incrementLoop (items : List OrderItem) (db : DB) : Except Err DB :=
  match items with
  | [] => .ok db
  | item :: rest =>
    match getBookById item.bookId db with
    | none => .error .recordToUpdateNotFound
    | some _ => incrementLoop rest (bookStockIncrement item.bookId item.quantity db)

/-- `cancelOrder(orderId, userId)`: not-found / ownership / PENDING
checks, then a transaction that restores stock for every line item and
sets the status to CANCELLED. -/
def cancelOrder (orderId : Nat) (userId : String) (db : DB) :
    Except Err (Order × DB) :=
  match findOrder orderId db with
  | none => .error .orderNotFound
  | some existing =>
    if existing.userId ≠ userId then .error .cancelForbidden
    else if existing.orderStatus ≠ OrderStatus.PENDING then .error .cancelInvalidState
    else
      match incrementLoop existing.items db with
      | .error e => .error e
      | .ok db1 =>
        let o' := { existing with orderStatus := OrderStatus.CANCELLED }
        .ok (o', setOrder orderId o' db1)

/-- The database state after a `cancelOrder` call. -/
def cancelOrderState (orderId : Nat) (userId : String) (db : DB) : DB :=
  match cancelOrder orderId userId db with
  | .ok (_, db') => db'
  | .error _ => db

/-- `updateOrderStatus(id, dto)` (admin only, guarded upstream):
not-found check, then set `orderStatus` unconditionally.  No other field
and no stock is touched. -/
def updateOrderStatus (orderId : Nat) (status : OrderStatus) (db : DB) :
    Except Err (Order × DB) :=
  match findOrder orderId db with
  | none => .error .orderNotFound
  | some existing =>
    let o' := { existing with orderStatus := status }
    .ok (o', setOrder orderId o' db)

/-- The database state after an `updateOrderStatus` call. -/
def updateOrderStatusState (orderId : Nat) (status : OrderStatus) (db : DB) : DB :=
  match updateOrderStatus orderId status db with
  | .ok (_, db') => db'
  | .error _ => db

/-! ### Error messages and the HTTP mapping of `POST /api/orders` -/

/-- The exact `Error(message)` strings of the source. -/
def Err.message : Err → String
  | .orderMustContainItem => "Order must contain at least one item"
  | .invalidOrderItem => "Invalid order item"
  | .bookNotFoundWithId id => "Book with ID " ++ id ++ " not found"
  | .insufficientStock title available requested =>
      "Insufficient stock for book \"" ++ title ++ "\". Available: " ++
        toString available ++ ", Requested: " ++ toString requested
  | .stockValidationFailed =>
      "Stock validation failed during order processing. Please try again."
  | .bookNotFound => "Book not found"
  | .insufficientStockPlain => "Insufficient stock"
  | .isbnExists => "A book with this ISBN already exists"
  | .bookReferencedInOrders => "Cannot delete book that is referenced in orders"
  | .orderNotFound => "Order not found"
  | .cancelForbidden => "You can only cancel your own orders"
  | .cancelInvalidState => "Only pending orders can be cancelled"
  | .emailAlreadyRegistered => "Email already registered"
  | .missingFields => "Missing required fields"
  | .invalidEmailFormat => "Invalid email format"
  | .passwordTooShort => "Password must be at least 6 characters long"
  | .negativePrice => "Price must be non-negative"
  | .negativeStockQuantity => "Stock quantity must be non-negative"
  | .emptyUpdateBody => "At least one field must be provided for update"
  | .recordToUpdateNotFound => "Record to update not found."

/-- Does the string start with the given pattern? (helper for the
`message.includes(...)` dispatch of the route). -/
def charsStartWith : List Char → List Char → Bool
  | [], _ => true
  | _ :: _, [] => false
  | p :: ps, c :: cs => p == c && charsStartWith ps cs

/-- Does the string contain the pattern as a contiguous substring? -/
def charsContain : List Char → List Char → Bool
  | [], pat => pat.isEmpty
  | c :: rest, pat => charsStartWith pat (c :: rest) || charsContain rest pat

/-- `message.includes(sub)`. -/
def containsSub (s sub : String) : Bool :=
  charsContain s.toList sub.toList

/-- The catch block of `POST /api/orders`: 404 when the message contains
'not found', 400 when it contains 'Insufficient stock', otherwise 500. -/
def orderRouteStatus (e : Err) : Nat :=
  if containsSub e.message "not found" then 404
  else if containsSub e.message "Insufficient stock" then 400
  else 500

/-- Does the error name the offending item together with its available
and requested quantities (the shape of the advisory-check failure)? -/
def namesOffendingItem : Err → Bool
  | .insufficientStock _ _ _ => true
  | _ => false

/-! ### The spec's atomic conditional decrement

Modelled from the spec: `decrement` "must be expressed as a conditional
update (decrement only if stock ≥ quantity) evaluated and applied as one
indivisible step against the backing store".  This definition follows
the spec's words (one indivisible check-and-decrement step) and exists
to be compared with the source's `decrementStock`, which performs the
check and the write as two separate storage operations. -/
def decrementConditional (bookId : String) (quantity : Int) (db : DB) :
    Except Err DB :=
  match getBookById bookId db with
  | none => .error .bookNotFound
  | some b =>
    if b.stockQuantity ≥ quantity then .ok (bookStockDecrement bookId quantity db)
    else .error .insufficientStockPlain

/-! ### Total requested quantity of one book across a list of line items -/

/-- Sum of the quantities of all line items that reference `id`. -/
def qtySum (items : List OrderItem) (id : String) : Int :=
  ((items.filter (fun it => it.bookId == id)).map (fun it => it.quantity)).sum

theorem qtySum_nil (id : String) : qtySum [] id = 0 := rfl

theorem qtySum_cons (it : OrderItem) (rest : List OrderItem) (id : String) :
    qtySum (it :: rest) id =
      (if it.bookId == id then it.quantity else 0) + qtySum rest id := by
  by_cases h : it.bookId == id <;>
    simp [qtySum, List.filter_cons, h]

/-! ### Generic lemmas about keyed updates on lists -/

theorem find?_map_ite {α κ : Type} [DecidableEq κ]
    (l : List α) (key : α → κ) (sel target : κ) (f : α → α)
    (hf : ∀ a, key (f a) = key a) :
    (l.map (fun a => if key a == sel then f a else a)).find?
        (fun a => key a == target)
      = if sel = target
        then (l.find? (fun a => key a == target)).map f
        else l.find? (fun a => key a == target) := by
  induction l with
  | nil => split <;> simp
  | cons a l ih =>
    have hga : key (if key a == sel then f a else a) = key a := by
      split <;> simp [hf]
    rw [List.map_cons]
    by_cases htar : key a = target
    · have hpos : (key (if key a == sel then f a else a) == target) = true := by
        rw [hga]
        exact beq_iff_eq.mpr htar
      rw [List.find?_cons_of_pos (p := fun x => key x == target) _ hpos,
        List.find?_cons_of_pos (p := fun x => key x == target) _ (beq_iff_eq.mpr htar)]
      by_cases hsel : sel = target
      · subst hsel
        simp [htar]
      · have hkey : ¬ key a = sel := by
          intro h
          exact hsel (h ▸ htar)
        simp [hkey, hsel]
    · have hneg : ¬ (key (if key a == sel then f a else a) == target) = true := by
        rw [hga]
        simp [htar]
      rw [List.find?_cons_of_neg (p := fun x => key x == target) _ hneg,
        List.find?_cons_of_neg (p := fun x => key x == target) _ (by simp [htar])]
      exact ih

theorem find?_eq_of_mem_nodup {α κ : Type} [BEq κ] [LawfulBEq κ]
    (l : List α) (key : α → κ) (hnd : (l.map key).Nodup)
    (x : α) (hx : x ∈ l) :
    l.find? (fun a => key a == key x) = some x := by
  induction l with
  | nil => cases hx
  | cons a l ih =>
    rw [List.map_cons, List.nodup_cons] at hnd
    rcases List.mem_cons.mp hx with rfl | hx'
    · exact List.find?_cons_of_pos _ (by simp)
    · have hne : ¬ key a = key x := by
        intro h
        exact hnd.1 (h ▸ List.mem_map_of_mem key hx')
      rw [List.find?_cons_of_neg (p := fun a => key a == key x) _ (by simp [hne])]
      exact ih hnd.2 hx'

/-! ### Pointwise effect of the stock updates -/

theorem getBookById_decrement_self (id : String) (q : Int) (db : DB) :
    getBookById id (bookStockDecrement id q db)
      = (getBookById id db).map
          (fun b => { b with stockQuantity := b.stockQuantity - q }) := by
  have := find?_map_ite db.books (fun b : Book => b.id) id id
    (fun b => { b with stockQuantity := b.stockQuantity - q }) (fun _ => rfl)
  simpa [getBookById, bookStockDecrement] using this

theorem getBookById_decrement_other (id id' : String) (q : Int) (db : DB)
    (h : ¬ id' = id) :
    getBookById id (bookStockDecrement id' q db) = getBookById id db := by
  have := find?_map_ite db.books (fun b : Book => b.id) id' id
    (fun b => { b with stockQuantity := b.stockQuantity - q }) (fun _ => rfl)
  simpa [getBookById, bookStockDecrement, h] using this

theorem getBookById_increment_self (id : String) (q : Int) (db : DB) :
    getBookById id (bookStockIncrement id q db)
      = (getBookById id db).map
          (fun b => { b with stockQuantity := b.stockQuantity + q }) := by
  have := find?_map_ite db.books (fun b : Book => b.id) id id
    (fun b => { b with stockQuantity := b.stockQuantity + q }) (fun _ => rfl)
  simpa [getBookById, bookStockIncrement] using this

theorem getBookById_increment_other (id id' : String) (q : Int) (db : DB)
    (h : ¬ id' = id) :
    getBookById id (bookStockIncrement id' q db) = getBookById id db := by
  have := find?_map_ite db.books (fun b : Book => b.id) id' id
    (fun b => { b with stockQuantity := b.stockQuantity + q }) (fun _ => rfl)
  simpa [getBookById, bookStockIncrement, h] using this

theorem bookStockDecrement_ids (id : String) (q : Int) (db : DB) :
    (bookStockDecrement id q db).books.map (fun b => b.id)
      = db.books.map (fun b => b.id) := by
  simp only [bookStockDecrement, List.map_map]
  refine List.map_congr_left (fun b _ => ?_)
  simp only [Function.comp]
  split <;> rfl

theorem bookStockIncrement_ids (id : String) (q : Int) (db : DB) :
    (bookStockIncrement id q db).books.map (fun b => b.id)
      = db.books.map (fun b => b.id) := by
  simp only [bookStockIncrement, List.map_map]
  refine List.map_congr_left (fun b _ => ?_)
  simp only [Function.comp]
  split <;> rfl

theorem bookStockDecrement_frame (id : String) (q : Int) (db : DB) :
    (bookStockDecrement id q db).orders = db.orders ∧
      (bookStockDecrement id q db).users = db.users ∧
      (bookStockDecrement id q db).nextId = db.nextId :=
  ⟨rfl, rfl, rfl⟩

/-! ### Lemmas about the transaction loops -/

theorem decrementLoop_ok_getBookById (items : List OrderItem) :
    ∀ (db db' : DB), decrementLoop items db = .ok db' → ∀ id : String,
      getBookById id db' = (getBookById id db).map
        (fun b => { b with stockQuantity := b.stockQuantity - qtySum items id }) := by
  induction items with
  | nil =>
    intro db db' h id
    simp only [decrementLoop] at h
    cases h
    cases hgb : getBookById id db <;> simp [qtySum_nil, hgb]
  | cons it rest ih =>
    intro db db' h id
    simp only [decrementLoop] at h
    cases hfind : getBookById it.bookId db with
    | none => rw [hfind] at h; cases h
    | some book =>
      rw [hfind] at h
      dsimp only at h
      by_cases hq : book.stockQuantity < it.quantity
      · rw [if_pos hq] at h; cases h
      · rw [if_neg hq] at h
        have ih' := ih _ _ h id
        rw [ih']
        by_cases hid : it.bookId = id
        · subst hid
          rw [getBookById_decrement_self]
          cases hgb : getBookById it.bookId db <;>
            simp [qtySum_cons, hgb, sub_sub]
        · rw [getBookById_decrement_other _ _ _ _ hid]
          have : ¬ (it.bookId == id) = true := by simp [hid]
          simp [qtySum_cons, this]

theorem decrementLoop_ok_frame (items : List OrderItem) :
    ∀ (db db' : DB), decrementLoop items db = .ok db' →
      db'.orders = db.orders ∧ db'.users = db.users ∧ db'.nextId = db.nextId ∧
        db'.books.map (fun b => b.id) = db.books.map (fun b => b.id) := by
  induction items with
  | nil =>
    intro db db' h
    simp only [decrementLoop] at h
    cases h
    exact ⟨rfl, rfl, rfl, rfl⟩
  | cons it rest ih =>
    intro db db' h
    simp only [decrementLoop] at h
    cases hfind : getBookById it.bookId db with
    | none => rw [hfind] at h; cases h
    | some book =>
      rw [hfind] at h
      dsimp only at h
      by_cases hq : book.stockQuantity < it.quantity
      · rw [if_pos hq] at h; cases h
      · rw [if_neg hq] at h
        obtain ⟨h1, h2, h3, h4⟩ := ih _ _ h
        exact ⟨h1, h2, h3, h4.trans (bookStockDecrement_ids _ _ _)⟩

theorem decrementLoop_ok_of_sufficient (items : List OrderItem) :
    ∀ db : DB, (items.map (fun it => it.bookId)).Nodup →
      (∀ it ∈ items, ∃ b, getBookById it.bookId db = some b ∧
        it.quantity ≤ b.stockQuantity) →
      ∃ db', decrementLoop items db = .ok db' := by
  induction items with
  | nil => intro db _ _; exact ⟨db, rfl⟩
  | cons it rest ih =>
    intro db hnd hex
    obtain ⟨b, hfind, hle⟩ := hex it (List.mem_cons_self _ _)
    rw [List.map_cons, List.nodup_cons] at hnd
    have hq : ¬ b.stockQuantity < it.quantity := not_lt.mpr hle
    have hrest : ∀ it' ∈ rest,
        ∃ b', getBookById it'.bookId (bookStockDecrement it.bookId it.quantity db)
          = some b' ∧ it'.quantity ≤ b'.stockQuantity := by
      intro it' hit'
      obtain ⟨b', hfind', hle'⟩ := hex it' (List.mem_cons_of_mem _ hit')
      have hne : ¬ it.bookId = it'.bookId := by
        intro hcontra
        exact hnd.1 (hcontra ▸ List.mem_map_of_mem _ hit')
      rw [getBookById_decrement_other _ _ _ _ hne]
      exact ⟨b', hfind', hle'⟩
    obtain ⟨db', hdb'⟩ := ih _ hnd.2 hrest
    refine ⟨db', ?_⟩
    simp only [decrementLoop, hfind, if_neg hq]
    exact hdb'

theorem bookStockDecrement_nonneg (id : String) (q : Int) (db : DB)
    (hnd : (db.books.map (fun b => b.id)).Nodup)
    (hpos : ∀ b ∈ db.books, 0 ≤ b.stockQuantity)
    (book : Book) (hfind : getBookById id db = some book)
    (hq : q ≤ book.stockQuantity) :
    ∀ b ∈ (bookStockDecrement id q db).books, 0 ≤ b.stockQuantity := by
  intro b' hb'
  simp only [bookStockDecrement, List.mem_map] at hb'
  obtain ⟨x, hx, rfl⟩ := hb'
  by_cases hxid : x.id = id
  · have hxfind : db.books.find? (fun a => a.id == x.id) = some x :=
      find?_eq_of_mem_nodup db.books (fun b => b.id) hnd x hx
    rw [hxid] at hxfind
    have : x = book := by
      have := hfind
      rw [getBookById] at this
      rw [this] at hxfind
      exact (Option.some_inj.mp hxfind).symm
    subst this
    simp only [hxid, beq_self_eq_true, if_true]
    omega
  · have : ¬ (x.id == id) = true := by simp [hxid]
    rw [if_neg this]
    exact hpos x hx

theorem decrementLoop_ok_nonneg (items : List OrderItem) :
    ∀ (db db' : DB), (db.books.map (fun b => b.id)).Nodup →
      (∀ b ∈ db.books, 0 ≤ b.stockQuantity) →
      decrementLoop items db = .ok db' →
      ∀ b ∈ db'.books, 0 ≤ b.stockQuantity := by
  induction items with
  | nil =>
    intro db db' _ hpos h
    simp only [decrementLoop] at h
    cases h
    exact hpos
  | cons it rest ih =>
    intro db db' hnd hpos h
    simp only [decrementLoop] at h
    cases hfind : getBookById it.bookId db with
    | none => rw [hfind] at h; cases h
    | some book =>
      rw [hfind] at h
      dsimp only at h
      by_cases hq : book.stockQuantity < it.quantity
      · rw [if_pos hq] at h; cases h
      · rw [if_neg hq] at h
        refine ih _ _ ?_ ?_ h
        · rw [bookStockDecrement_ids]; exact hnd
        · exact bookStockDecrement_nonneg _ _ _ hnd hpos book hfind (not_lt.mp hq)

theorem incrementLoop_ok_getBookById (items : List OrderItem) :
    ∀ (db db' : DB), incrementLoop items db = .ok db' → ∀ id : String,
      getBookById id db' = (getBookById id db).map
        (fun b => { b with stockQuantity := b.stockQuantity + qtySum items id }) := by
  induction items with
  | nil =>
    intro db db' h id
    simp only [incrementLoop] at h
    cases h
    cases hgb : getBookById id db <;> simp [qtySum_nil, hgb]
  | cons it rest ih =>
    intro db db' h id
    simp only [incrementLoop] at h
    cases hfind : getBookById it.bookId db with
    | none => rw [hfind] at h; cases h
    | some book =>
      rw [hfind] at h
      dsimp only at h
      have ih' := ih _ _ h id
      rw [ih']
      by_cases hid : it.bookId = id
      · subst hid
        rw [getBookById_increment_self]
        cases hgb : getBookById it.bookId db <;>
          simp [qtySum_cons, hgb, add_assoc]
      · rw [getBookById_increment_other _ _ _ _ hid]
        have : ¬ (it.bookId == id) = true := by simp [hid]
        simp [qtySum_cons, this]

theorem incrementLoop_ok_frame (items : List OrderItem) :
    ∀ (db db' : DB), incrementLoop items db = .ok db' →
      db'.orders = db.orders ∧ db'.users = db.users ∧ db'.nextId = db.nextId ∧
        db'.books.map (fun b => b.id) = db.books.map (fun b => b.id) := by
  induction items with
  | nil =>
    intro db db' h
    simp only [incrementLoop] at h
    cases h
    exact ⟨rfl, rfl, rfl, rfl⟩
  | cons it rest ih =>
    intro db db' h
    simp only [incrementLoop] at h
    cases hfind : getBookById it.bookId db with
    | none => rw [hfind] at h; cases h
    | some book =>
      rw [hfind] at h
      dsimp only at h
      obtain ⟨h1, h2, h3, h4⟩ := ih _ _ h
      exact ⟨h1, h2, h3, h4.trans (bookStockIncrement_ids _ _ _)⟩

theorem incrementLoop_ok_of_present (items : List OrderItem) :
    ∀ db : DB, (∀ it ∈ items, (getBookById it.bookId db).isSome) →
      ∃ db', incrementLoop items db = .ok db' := by
  induction items with
  | nil => intro db _; exact ⟨db, rfl⟩
  | cons it rest ih =>
    intro db hex
    obtain ⟨b, hfind⟩ := Option.isSome_iff_exists.mp (hex it (List.mem_cons_self _ _))
    have hrest : ∀ it' ∈ rest,
        (getBookById it'.bookId (bookStockIncrement it.bookId it.quantity db)).isSome := by
      intro it' hit'
      by_cases hid : it.bookId = it'.bookId
      · rw [← hid, getBookById_increment_self]
        simp [Option.isSome_map, hfind]
      · rw [getBookById_increment_other _ _ _ _ hid]
        exact hex it' (List.mem_cons_of_mem _ hit')
    obtain ⟨db', hdb'⟩ := ih _ hrest
    refine ⟨db', ?_⟩
    simp only [incrementLoop, hfind]
    exact hdb'

/-! ### Lemmas about the validation / advisory-check loop -/

theorem checkStockAvailability_of_some {bookId : String} {db : DB} {b : Book}
    (q : Int) (hfind : getBookById bookId db = some b) :
    checkStockAvailability bookId q db = .ok (decide (b.stockQuantity ≥ q)) := by
  simp [checkStockAvailability, hfind]

theorem buildOrderItems_ok_spec (items : List CreateOrderItemDTO) :
    ∀ (db : DB) (ois : List OrderItem) (total : ℚ),
      buildOrderItems items db = .ok (ois, total) →
      total = (ois.map (fun oi => oi.subtotal)).sum ∧
      List.Forall₂ (fun (item : CreateOrderItemDTO) (oi : OrderItem) =>
        ∃ b, getBookById item.bookId db = some b ∧
          0 < item.quantity ∧ item.quantity ≤ b.stockQuantity ∧
          oi = { bookId := item.bookId, quantity := item.quantity,
                 unitPrice := b.price,
                 subtotal := b.price * (item.quantity : ℚ) })
        items ois := by
  induction items with
  | nil =>
    intro db ois total h
    simp only [buildOrderItems] at h
    cases h
    exact ⟨rfl, List.Forall₂.nil⟩
  | cons item rest ih =>
    intro db ois total h
    simp only [buildOrderItems] at h
    by_cases hval : item.bookId = "" ∨ item.quantity ≤ 0
    · rw [if_pos hval] at h; cases h
    · rw [if_neg hval] at h
      cases hfind : getBookById item.bookId db with
      | none => rw [hfind] at h; cases h
      | some book =>
        rw [hfind, checkStockAvailability_of_some item.quantity hfind] at h
        dsimp only at h
        by_cases havail : book.stockQuantity ≥ item.quantity
        · rw [if_neg (by simp [havail])] at h
          cases hrest : buildOrderItems rest db with
          | error e => rw [hrest] at h; cases h
          | ok p =>
            obtain ⟨ois', total'⟩ := p
            rw [hrest] at h
            dsimp only at h
            cases h
            obtain ⟨htot, hall⟩ := ih db ois' total' hrest
            constructor
            · simp [htot]
            · refine List.Forall₂.cons ⟨book, hfind, ?_, havail, rfl⟩ hall
              omega
        · rw [if_pos (by simp [havail])] at h
          cases h

theorem buildOrderItems_error_of_insufficient (items : List CreateOrderItemDTO) :
    ∀ db : DB,
      (∃ item ∈ items, ∃ b, getBookById item.bookId db = some b ∧
        b.stockQuantity < item.quantity) →
      ∃ e, buildOrderItems items db = .error e := by
  induction items with
  | nil =>
    intro db h
    obtain ⟨item, hmem, _⟩ := h
    cases hmem
  | cons item rest ih =>
    intro db h
    simp only [buildOrderItems]
    by_cases hval : item.bookId = "" ∨ item.quantity ≤ 0
    · exact ⟨_, by rw [if_pos hval]⟩
    · rw [if_neg hval]
      cases hfind : getBookById item.bookId db with
      | none => exact ⟨_, rfl⟩
      | some book =>
        rw [checkStockAvailability_of_some item.quantity hfind]
        dsimp only
        by_cases havail : book.stockQuantity ≥ item.quantity
        · rw [if_neg (by simp [havail])]
          have hwit : ∃ item' ∈ rest, ∃ b, getBookById item'.bookId db = some b ∧
              b.stockQuantity < item'.quantity := by
            obtain ⟨item', hmem, b, hfind', hlt⟩ := h
            rcases List.mem_cons.mp hmem with rfl | hmem'
            · rw [hfind] at hfind'
              cases hfind'
              omega
            · exact ⟨item', hmem', b, hfind', hlt⟩
          obtain ⟨e, he⟩ := ih db hwit
          rw [he]
          exact ⟨e, rfl⟩
        · rw [if_pos (by simp [havail])]
          exact ⟨_, rfl⟩

theorem buildOrderItems_insufficient_shape (items : List CreateOrderItemDTO) :
    ∀ (db : DB) (t : String) (a r : Int),
      buildOrderItems items db = .error (.insufficientStock t a r) →
      ∃ item ∈ items, ∃ b, getBookById item.bookId db = some b ∧
        b.title = t ∧ b.stockQuantity = a ∧ item.quantity = r ∧ a < r := by
  induction items with
  | nil =>
    intro db t a r h
    simp only [buildOrderItems] at h
    cases h
  | cons item rest ih =>
    intro db t a r h
    simp only [buildOrderItems] at h
    by_cases hval : item.bookId = "" ∨ item.quantity ≤ 0
    · rw [if_pos hval] at h; cases h
    · rw [if_neg hval] at h
      cases hfind : getBookById item.bookId db with
      | none => rw [hfind] at h; cases h
      | some book =>
        rw [hfind, checkStockAvailability_of_some item.quantity hfind] at h
        dsimp only at h
        by_cases havail : book.stockQuantity ≥ item.quantity
        · rw [if_neg (by simp [havail])] at h
          cases hrest : buildOrderItems rest db with
          | error e =>
            rw [hrest] at h
            dsimp only at h
            cases h
            obtain ⟨item', hmem, hrest'⟩ := ih db t a r hrest
            exact ⟨item', List.mem_cons_of_mem _ hmem, hrest'⟩
          | ok p =>
            obtain ⟨ois', total'⟩ := p
            rw [hrest] at h
            cases h
        · rw [if_pos (by simp [havail])] at h
          cases h
          exact ⟨item, List.mem_cons_self _ _, book, hfind, rfl, rfl, rfl, by omega⟩

theorem buildOrderItems_ok_of_valid (items : List CreateOrderItemDTO) :
    ∀ db : DB,
      (∀ item ∈ items, ¬ item.bookId = "" ∧ 0 < item.quantity ∧
        ∃ b, getBookById item.bookId db = some b ∧
          item.quantity ≤ b.stockQuantity) →
      ∃ p, buildOrderItems items db = .ok p := by
  induction items with
  | nil => intro db _; exact ⟨([], 0), rfl⟩
  | cons item rest ih =>
    intro db hvalid
    obtain ⟨hid, hqty, b, hfind, hle⟩ := hvalid item (List.mem_cons_self _ _)
    obtain ⟨p, hp⟩ := ih db (fun it hit => hvalid it (List.mem_cons_of_mem _ hit))
    obtain ⟨ois, total⟩ := p
    refine ⟨({ bookId := item.bookId, quantity := item.quantity,
               unitPrice := b.price,
               subtotal := b.price * (item.quantity : ℚ) } :: ois,
             b.price * (item.quantity : ℚ) + total), ?_⟩
    simp only [buildOrderItems]
    rw [if_neg (by push_neg; exact ⟨hid, by omega⟩), hfind,
      checkStockAvailability_of_some item.quantity hfind]
    dsimp only
    rw [if_neg (by simp; omega), hp]

theorem forall₂_mem_right {α β : Type} {R : α → β → Prop}
    {l₁ : List α} {l₂ : List β} (h : List.Forall₂ R l₁ l₂) :
    ∀ b ∈ l₂, ∃ a ∈ l₁, R a b := by
  induction h with
  | nil => intro b hb; cases hb
  | cons hr _ ih =>
    intro b hb
    rcases List.mem_cons.mp hb with rfl | hb'
    · exact ⟨_, List.mem_cons_self _ _, hr⟩
    · obtain ⟨a, ha, har⟩ := ih b hb'
      exact ⟨a, List.mem_cons_of_mem _ ha, har⟩

theorem forall₂_mem_left {α β : Type} {R : α → β → Prop}
    {l₁ : List α} {l₂ : List β} (h : List.Forall₂ R l₁ l₂) :
    ∀ a ∈ l₁, ∃ b ∈ l₂, R a b := by
  induction h with
  | nil => intro a ha; cases ha
  | cons hr _ ih =>
    intro a ha
    rcases List.mem_cons.mp ha with rfl | ha'
    · exact ⟨_, List.mem_cons_self _ _, hr⟩
    · obtain ⟨b, hb, hbr⟩ := ih a ha'
      exact ⟨b, List.mem_cons_of_mem _ hb, hbr⟩

theorem forall₂_map_eq {α β γ : Type} {R : α → β → Prop}
    {l₁ : List α} {l₂ : List β} (h : List.Forall₂ R l₁ l₂)
    (f : α → γ) (g : β → γ) (hfg : ∀ a b, R a b → g b = f a) :
    l₂.map g = l₁.map f := by
  induction h with
  | nil => rfl
  | cons hr _ ih => simp [ih, hfg _ _ hr]

/-- Anatomy of a successful `createOrder`: validation succeeded, the
transaction's decrement loop succeeded, and the order record was
appended with a fresh id. -/
theorem createOrder_ok_anatomy {u : String} {dto : CreateOrderDTO} {db : DB}
    {o : Order} {db' : DB} (h : createOrder u dto db = .ok (o, db')) :
    ∃ ois total db1,
      buildOrderItems dto.items db = .ok (ois, total) ∧
      decrementLoop ois db = .ok db1 ∧
      o = { id := db1.nextId, userId := u, items := ois, totalPrice := total,
            orderStatus := .PENDING, paymentStatus := .PENDING } ∧
      db' = { db1 with orders := db1.orders ++ [o], nextId := db1.nextId + 1 } := by
  simp only [createOrder] at h
  by_cases hempty : dto.items.isEmpty
  · rw [if_pos hempty] at h; cases h
  · rw [if_neg hempty] at h
    cases hbuild : buildOrderItems dto.items db with
    | error e => rw [hbuild] at h; cases h
    | ok p =>
      obtain ⟨ois, total⟩ := p
      rw [hbuild] at h
      dsimp only at h
      cases hdec : decrementLoop ois db with
      | error e => rw [hdec] at h; cases h
      | ok db1 =>
        rw [hdec] at h
        dsimp only at h
        cases h
        exact ⟨ois, total, db1, rfl, hdec, rfl, rfl⟩

theorem qtySum_eq_zero_of_not_mem (items : List OrderItem) (id : String)
    (h : ∀ it ∈ items, ¬ it.bookId = id) : qtySum items id = 0 := by
  have : items.filter (fun it => it.bookId == id) = [] :=
    List.filter_eq_nil_iff.mpr (fun it hit => by simp [h it hit])
  simp [qtySum, this]

theorem qtySum_of_nodup (items : List OrderItem) (oi : OrderItem)
    (hnd : (items.map (fun it => it.bookId)).Nodup) (hmem : oi ∈ items) :
    qtySum items oi.bookId = oi.quantity := by
  induction items with
  | nil => cases hmem
  | cons it rest ih =>
    rw [List.map_cons, List.nodup_cons] at hnd
    rcases List.mem_cons.mp hmem with rfl | hmem'
    · rw [qtySum_cons, if_pos (by simp),
        qtySum_eq_zero_of_not_mem rest oi.bookId
          (fun it' hit' h => hnd.1 (h ▸ List.mem_map_of_mem _ hit'))]
      omega
    · have hne : ¬ it.bookId = oi.bookId := by
        intro h
        exact hnd.1 (h ▸ List.mem_map_of_mem _ hmem')
      rw [qtySum_cons, if_neg (by simp [hne]), ih hnd.2 hmem']
      omega

/-! ### Example fixtures used by witnesses and counterexamples -/

/-- A catalog item with a chosen stock level. -/
def bookAWith (s : Int) : Book :=
  { id := "A", title := "Dune", authors := "F. Herbert", genre := "SF",
    isbn := "111", price := 10, description := none, stockQuantity := s,
    imageUrl := none }

/-- A second catalog item with a chosen stock level. -/
def bookBWith (s : Int) : Book :=
  { id := "B", title := "Emma", authors := "J. Austen", genre := "Classic",
    isbn := "222", price := 3, description := none, stockQuantity := s,
    imageUrl := none }

/-- A one-book database. -/
def dbWith (s : Int) : DB :=
  { books := [bookAWith s], orders := [], users := [], nextId := 0 }

/-- A two-book database. -/
def dbTwo (sa sb : Int) : DB :=
  { books := [bookAWith sa, bookBWith sb], orders := [], users := [], nextId := 0 }

/-! ### C1 -/

/-- C1: for every item set in which at least one item has insufficient
stock, `placeOrder` (`createOrder`) fails, leaves every item's stock
unchanged (no partial decrement — the advisory phase performs no writes
and a failing transaction is rolled back as a unit), and creates no
Order. -/
theorem claim_c1_insufficient_stock_no_partial_effects
    (u : String) (dto : CreateOrderDTO) (db : DB)
    (h : ∃ item ∈ dto.items, ∃ b, getBookById item.bookId db = some b ∧
      b.stockQuantity < item.quantity) :
    (∃ e, createOrder u dto db = .error e) ∧
    createOrderState u dto db = db ∧
    (createOrderState u dto db).orders = db.orders ∧
    (∀ id, stockOf id (createOrderState u dto db) = stockOf id db) := by
  have hne : ¬ dto.items.isEmpty := by
    obtain ⟨item, hmem, _⟩ := h
    cases hitems : dto.items with
    | nil => rw [hitems] at hmem; cases hmem
    | cons a l => simp [hitems]
  obtain ⟨e, he⟩ := buildOrderItems_error_of_insufficient dto.items db h
  have hco : createOrder u dto db = .error e := by
    simp only [createOrder]
    rw [if_neg hne, he]
  have hstate : createOrderState u dto db = db := by
    simp [createOrderState, hco]
  exact ⟨⟨e, hco⟩, hstate, by rw [hstate], fun id => by rw [hstate]⟩

/-- Witness for C1: a single-item order requesting 1 unit of a book with
stock 0 fails and leaves the database untouched. -/
theorem claim_c1_witness :
    (∃ e, createOrder "u" { items := [{ bookId := "A", quantity := 1 }] }
        (dbWith 0) = .error e) ∧
    createOrderState "u" { items := [{ bookId := "A", quantity := 1 }] }
        (dbWith 0) = dbWith 0 ∧
    (createOrderState "u" { items := [{ bookId := "A", quantity := 1 }] }
        (dbWith 0)).orders = (dbWith 0).orders ∧
    (∀ id, stockOf id (createOrderState "u"
        { items := [{ bookId := "A", quantity := 1 }] } (dbWith 0))
      = stockOf id (dbWith 0)) :=
  claim_c1_insufficient_stock_no_partial_effects "u"
    { items := [{ bookId := "A", quantity := 1 }] } (dbWith 0)
    ⟨{ bookId := "A", quantity := 1 }, by simp, bookAWith 0, rfl, by decide⟩

/-! ### C4 -/

/-- C4: for every valid item set (nonempty, pairwise-distinct book ids,
positive quantities) with sufficient stock, `createOrder` succeeds; the
order's `totalPrice` is the sum of the line subtotals, each line carries
the snapshot `unitPrice` of its book's catalog price and
`subtotal = unitPrice × quantity`, every referenced book's stock is
decremented by exactly the requested quantity, and no other book's
record changes. -/
theorem claim_c4_place_order_success
    (u : String) (dto : CreateOrderDTO) (db : DB)
    (hne : dto.items ≠ [])
    (hnd : (dto.items.map (fun it => it.bookId)).Nodup)
    (hvalid : ∀ item ∈ dto.items, ¬ item.bookId = "" ∧ 0 < item.quantity ∧
      ∃ b, getBookById item.bookId db = some b ∧
        item.quantity ≤ b.stockQuantity) :
    ∃ o db', createOrder u dto db = .ok (o, db') ∧
      o.userId = u ∧ o.orderStatus = .PENDING ∧ o.paymentStatus = .PENDING ∧
      o.totalPrice = (o.items.map (fun oi => oi.subtotal)).sum ∧
      List.Forall₂ (fun (item : CreateOrderItemDTO) (oi : OrderItem) =>
        ∃ b, getBookById item.bookId db = some b ∧
          oi.bookId = item.bookId ∧ oi.quantity = item.quantity ∧
          oi.unitPrice = b.price ∧
          oi.subtotal = oi.unitPrice * (oi.quantity : ℚ))
        dto.items o.items ∧
      (∀ item ∈ dto.items, ∃ b, getBookById item.bookId db = some b ∧
        getBookById item.bookId db' =
          some { b with stockQuantity := b.stockQuantity - item.quantity }) ∧
      (∀ id : String, (∀ item ∈ dto.items, ¬ item.bookId = id) →
        getBookById id db' = getBookById id db) := by
  obtain ⟨p, hbuild⟩ := buildOrderItems_ok_of_valid dto.items db hvalid
  obtain ⟨ois, total⟩ := p
  obtain ⟨htot, hall⟩ := buildOrderItems_ok_spec dto.items db ois total hbuild
  have hmapeq : ois.map (fun oi => oi.bookId)
      = dto.items.map (fun it => it.bookId) := by
    refine forall₂_map_eq hall _ _ ?_
    rintro item oi ⟨b, _, _, _, rfl⟩
    rfl
  have hnd' : (ois.map (fun oi => oi.bookId)).Nodup := by rw [hmapeq]; exact hnd
  have hsuff : ∀ oi ∈ ois, ∃ b, getBookById oi.bookId db = some b ∧
      oi.quantity ≤ b.stockQuantity := by
    intro oi hoi
    obtain ⟨item, _, b, hfind, _, hle, rfl⟩ := forall₂_mem_right hall oi hoi
    exact ⟨b, hfind, hle⟩
  obtain ⟨db1, hdec⟩ := decrementLoop_ok_of_sufficient ois db hnd' hsuff
  let newOrder : Order := { id := db1.nextId, userId := u, items := ois, totalPrice := total, orderStatus := .PENDING, paymentStatus := .PENDING }
  let db2 : DB := { db1 with orders := db1.orders ++ [newOrder], nextId := db1.nextId + 1 }
  refine ⟨newOrder, db2, ?_, rfl, rfl, rfl, htot, ?_, ?_, ?_⟩
  · simp only [createOrder]
    rw [if_neg (by simpa [List.isEmpty_iff] using hne), hbuild]
    dsimp only
    rw [hdec]
  · refine hall.imp ?_
    rintro item oi ⟨b, hfind, _, _, rfl⟩
    exact ⟨b, hfind, rfl, rfl, rfl, rfl⟩
  · intro item hitem
    obtain ⟨oi, hoi, b, hfind, hbid, hqty, _, _⟩ :=
      (by
        obtain ⟨oi, hoi, b, hfind, _, _, rfl⟩ := forall₂_mem_left hall item hitem
        exact ⟨_, hoi, b, hfind, rfl, rfl, rfl, rfl⟩ :
        ∃ oi ∈ ois, ∃ b, getBookById item.bookId db = some b ∧
          oi.bookId = item.bookId ∧ oi.quantity = item.quantity ∧
          oi.unitPrice = b.price ∧ oi.subtotal = b.price * (item.quantity : ℚ))
    refine ⟨b, hfind, ?_⟩
    have hpt := decrementLoop_ok_getBookById ois db db1 hdec item.bookId
    have hq : qtySum ois item.bookId = item.quantity := by
      rw [← hbid, qtySum_of_nodup ois oi hnd' hoi, hqty]
    have hframe : getBookById item.bookId db2 = getBookById item.bookId db1 := rfl
    rw [hframe, hpt, hfind, hq]
    rfl
  · intro id hid
    have hpt := decrementLoop_ok_getBookById ois db db1 hdec id
    have hz : qtySum ois id = 0 := by
      refine qtySum_eq_zero_of_not_mem ois id ?_
      intro oi hoi
      obtain ⟨item, hitem, b, _, _, _, rfl⟩ := forall₂_mem_right hall oi hoi
      exact hid item hitem
    have hframe : getBookById id db2 = getBookById id db1 := rfl
    rw [hframe, hpt, hz]
    cases hgb : getBookById id db <;> simp

/-- Witness for C4: an order for 2 of book A (stock 5) and 1 of book B
(stock 10) succeeds with a correctly priced order and the exact stock
decrements. -/
theorem claim_c4_witness :
    ∃ o db', createOrder "u"
        { items := [{ bookId := "A", quantity := 2 }, { bookId := "B", quantity := 1 }] }
        (dbTwo 5 10) = .ok (o, db') ∧
      o.userId = "u" ∧ o.orderStatus = .PENDING ∧ o.paymentStatus = .PENDING ∧
      o.totalPrice = (o.items.map (fun oi => oi.subtotal)).sum ∧
      List.Forall₂ (fun (item : CreateOrderItemDTO) (oi : OrderItem) =>
        ∃ b, getBookById item.bookId (dbTwo 5 10) = some b ∧
          oi.bookId = item.bookId ∧ oi.quantity = item.quantity ∧
          oi.unitPrice = b.price ∧
          oi.subtotal = oi.unitPrice * (oi.quantity : ℚ))
        [{ bookId := "A", quantity := 2 }, { bookId := "B", quantity := 1 }] o.items ∧
      (∀ item ∈ ([{ bookId := "A", quantity := 2 }, { bookId := "B", quantity := 1 }] : List CreateOrderItemDTO),
        ∃ b, getBookById item.bookId (dbTwo 5 10) = some b ∧
          getBookById item.bookId db' =
            some { b with stockQuantity := b.stockQuantity - item.quantity }) ∧
      (∀ id : String,
        (∀ item ∈ ([{ bookId := "A", quantity := 2 }, { bookId := "B", quantity := 1 }] : List CreateOrderItemDTO),
          ¬ item.bookId = id) →
        getBookById id db' = getBookById id (dbTwo 5 10)) :=
  claim_c4_place_order_success "u"
    { items := [{ bookId := "A", quantity := 2 }, { bookId := "B", quantity := 1 }] }
    (dbTwo 5 10) (by simp) (by decide) (by
      intro item h
      rcases List.mem_cons.mp h with rfl | h'
      · exact ⟨by decide, by decide, bookAWith 5, rfl, by decide⟩
      · rcases List.mem_cons.mp h' with rfl | h''
        · exact ⟨by decide, by decide, bookBWith 10, rfl, by decide⟩
        · cases h'')

/-! ### C2 -/

/-- Counterexample for C2.  `decrementStock` performs its check against a
separate `findUnique` read and then issues an *unconditional* decrement
update, so it is not "evaluated and applied as one indivisible step":
with stock 1, both of two interleaved calls (read₁, read₂, write₁,
write₂) pass the in-process check against the same read value `1`, and
the two unconditional writes drive the stock to `-1`.  The spec's
indivisible conditional update (`decrementConditional`), serialised in
either order from the same state, instead leaves stock `0` and fails the
second call — no interleaving of indivisible steps can produce `-1`. -/
theorem claim_c2_decrement_not_indivisible_cex :
    decrementStockRead "A" (dbWith 1) = some 1 ∧
    ¬ (1 : Int) < 1 ∧
    stockOf "A" (decrementStockWrite "A" 1 (decrementStockWrite "A" 1 (dbWith 1)))
      = some (-1) ∧
    decrementConditional "A" 1 (dbWith 1) = .ok (dbWith 0) ∧
    stockOf "A" (dbWith 0) = some 0 ∧
    decrementConditional "A" 1 (dbWith 0) = .error .insufficientStockPlain := by
  exact ⟨rfl, by decide, rfl, rfl, rfl, rfl⟩

/-- C2 (amended): sequentially, `decrementStock` computes exactly the
result of the spec's conditional update — NotFound when the book is
missing, InsufficientStock when stock < quantity, otherwise it subtracts
exactly `quantity` and touches no other book — but it is implemented as
a separate read (`decrementStockRead`) followed by an unconditional
decrement write (`decrementStockWrite`), not as one indivisible
conditional step. -/
theorem claim_c2_decrement_sequential_behaviour
    (bookId : String) (quantity : Int) (db : DB) :
    decrementStock bookId quantity db = decrementConditional bookId quantity db ∧
    (getBookById bookId db = none →
      decrementStock bookId quantity db = .error .bookNotFound) ∧
    (∀ b, getBookById bookId db = some b → b.stockQuantity < quantity →
      decrementStock bookId quantity db = .error .insufficientStockPlain) ∧
    (∀ b, getBookById bookId db = some b → quantity ≤ b.stockQuantity →
      decrementStock bookId quantity db
          = .ok (decrementStockWrite bookId quantity db) ∧
        stockOf bookId (decrementStockWrite bookId quantity db)
          = some (b.stockQuantity - quantity) ∧
        (∀ id, ¬ id = bookId →
          getBookById id (decrementStockWrite bookId quantity db)
            = getBookById id db)) := by
  refine ⟨?_, ?_, ?_, ?_⟩
  · simp only [decrementStock, decrementStockRead, decrementConditional]
    cases hfind : getBookById bookId db with
    | none => rfl
    | some b =>
      dsimp only [Option.map]
      by_cases hq : b.stockQuantity < quantity
      · rw [if_pos hq, if_neg (by omega)]
      · rw [if_neg hq, if_pos (by omega)]
        rfl
  · intro h
    simp [decrementStock, decrementStockRead, h]
  · intro b hfind hlt
    simp [decrementStock, decrementStockRead, hfind, hlt]
  · intro b hfind hge
    refine ⟨?_, ?_, ?_⟩
    · simp only [decrementStock, decrementStockRead, hfind]
      dsimp only [Option.map]
      rw [if_neg (by omega)]
    · simp only [stockOf, decrementStockWrite, getBookById_decrement_self, hfind,
        Option.map_map, Option.map_some]
      rfl
    · intro id hid
      exact getBookById_decrement_other id bookId quantity db
        (fun h => hid h.symm)

/-- Witness for C2 (amended): with stock 3 and a request of 2 the
decrement succeeds and leaves stock 1. -/
theorem claim_c2_decrement_sequential_behaviour_witness :
    decrementStock "A" 2 (dbWith 3) = .ok (decrementStockWrite "A" 2 (dbWith 3)) ∧
    stockOf "A" (decrementStockWrite "A" 2 (dbWith 3)) = some 1 ∧
    (∀ id, ¬ id = "A" →
      getBookById id (decrementStockWrite "A" 2 (dbWith 3))
        = getBookById id (dbWith 3)) :=
  (claim_c2_decrement_sequential_behaviour "A" 2 (dbWith 3)).2.2.2
    (bookAWith 3) rfl (by decide)

/-! ### Lemmas about `setOrder` / `findOrder` -/

theorem find?_set_self (orderId : Nat) (o' : Order) (h : o'.id = orderId) :
    ∀ l : List Order,
      (l.find? (fun (o : Order) => o.id == orderId)).isSome →
      (l.map (fun o => if o.id == orderId then o' else o)).find?
        (fun (o : Order) => o.id == orderId) = some o' := by
  intro l
  induction l with
  | nil => intro hexist; simp at hexist
  | cons a l ih =>
    intro hexist
    by_cases ha : a.id = orderId
    · rw [List.map_cons, if_pos (by simp [ha])]
      exact List.find?_cons_of_pos _ (by simp [h])
    · rw [List.map_cons, if_neg (by simp [ha])]
      rw [List.find?_cons_of_neg (p := fun (o : Order) => o.id == orderId) _
        (by simp [ha])]
      rw [List.find?_cons_of_neg (p := fun (o : Order) => o.id == orderId) _
        (by simp [ha])] at hexist
      exact ih hexist

theorem findOrder_setOrder_self (db : DB) (orderId : Nat) (o' : Order)
    (h : o'.id = orderId) (hexist : (findOrder orderId db).isSome) :
    findOrder orderId (setOrder orderId o' db) = some o' :=
  find?_set_self orderId o' h db.orders hexist

theorem setOrder_mem_other (db : DB) (orderId : Nat) (o' o2 : Order)
    (hmem : o2 ∈ db.orders) (h : ¬ o2.id = orderId) :
    o2 ∈ (setOrder orderId o' db).orders := by
  simp only [setOrder]
  have := List.mem_map_of_mem (fun o => if o.id == orderId then o' else o) hmem
  simpa [h] using this

/-! ### C8 -/

/-- C8: `updateOrderStatus` fails with NotFound when the order is absent
(and changes nothing), and otherwise sets `orderStatus` unconditionally
— for every status value, including DELIVERED and CANCELLED — while
changing nothing else: the catalog (`books`), the users, the id counter,
the order's items, totalPrice, paymentStatus and owner are all
unchanged, and every other order is untouched. -/
theorem claim_c8_update_status_frame (orderId : Nat) (status : OrderStatus)
    (db : DB) :
    (findOrder orderId db = none →
      updateOrderStatus orderId status db = .error .orderNotFound ∧
      updateOrderStatusState orderId status db = db) ∧
    (∀ o, findOrder orderId db = some o →
      updateOrderStatus orderId status db
          = .ok ({ o with orderStatus := status },
                 setOrder orderId { o with orderStatus := status } db) ∧
      (setOrder orderId { o with orderStatus := status } db).books = db.books ∧
      (setOrder orderId { o with orderStatus := status } db).users = db.users ∧
      (setOrder orderId { o with orderStatus := status } db).nextId = db.nextId ∧
      findOrder orderId (setOrder orderId { o with orderStatus := status } db)
        = some { o with orderStatus := status } ∧
      ({ o with orderStatus := status } : Order).orderStatus = status ∧
      ({ o with orderStatus := status } : Order).items = o.items ∧
      ({ o with orderStatus := status } : Order).totalPrice = o.totalPrice ∧
      ({ o with orderStatus := status } : Order).paymentStatus = o.paymentStatus ∧
      ({ o with orderStatus := status } : Order).userId = o.userId ∧
      (∀ o2 ∈ db.orders, ¬ o2.id = orderId →
        o2 ∈ (setOrder orderId { o with orderStatus := status } db).orders)) := by
  constructor
  · intro h
    constructor
    · simp [updateOrderStatus, h]
    · simp [updateOrderStatusState, updateOrderStatus, h]
  · intro o hfind
    have hid : o.id = orderId := by
      have := List.find?_some hfind
      simpa using this
    have hexist : (findOrder orderId db).isSome := by simp [hfind]
    refine ⟨by simp [updateOrderStatus, hfind], rfl, rfl, rfl, ?_, rfl, rfl,
      rfl, rfl, rfl, ?_⟩
    · exact findOrder_setOrder_self db orderId _ hid hexist
    · intro o2 hmem hne
      exact setOrder_mem_other db orderId _ o2 hmem hne

/-- A sample PENDING order over book A. -/
def orderWith (st : OrderStatus) : Order :=
  { id := 0, userId := "u",
    items := [{ bookId := "A", quantity := 1, unitPrice := 10, subtotal := 10 }],
    totalPrice := 10, orderStatus := st, paymentStatus := .PENDING }

/-- A database holding book A (stock 4) and one order in the given
status. -/
def dbOrder (st : OrderStatus) : DB :=
  { books := [bookAWith 4], orders := [orderWith st], users := [], nextId := 1 }

/-- Witness for C8: marking the sample PENDING order DELIVERED touches
neither the catalog nor any other order field. -/
theorem claim_c8_witness :
    updateOrderStatus 0 .DELIVERED (dbOrder .PENDING)
        = .ok ({ orderWith .PENDING with orderStatus := .DELIVERED },
               setOrder 0 { orderWith .PENDING with orderStatus := .DELIVERED }
                 (dbOrder .PENDING)) ∧
    (setOrder 0 { orderWith .PENDING with orderStatus := .DELIVERED }
        (dbOrder .PENDING)).books = (dbOrder .PENDING).books ∧
    ({ orderWith .PENDING with orderStatus := .DELIVERED } : Order).items
      = (orderWith .PENDING).items :=
  let h := (claim_c8_update_status_frame 0 .DELIVERED (dbOrder .PENDING)).2
    (orderWith .PENDING) rfl
  ⟨h.1, h.2.1, h.2.2.2.2.2.2.1⟩

/-! ### C5 -/

theorem decrementLoop_error_shape (items : List OrderItem) :
    ∀ (db : DB) (e : Err), decrementLoop items db = .error e →
      e = .stockValidationFailed := by
  induction items with
  | nil => intro db e h; cases h
  | cons it rest ih =>
    intro db e h
    simp only [decrementLoop] at h
    cases hfind : getBookById it.bookId db with
    | none =>
      rw [hfind] at h
      dsimp only at h
      cases h
      rfl
    | some book =>
      rw [hfind] at h
      dsimp only at h
      by_cases hq : book.stockQuantity < it.quantity
      · rw [if_pos hq] at h
        cases h
        rfl
      · rw [if_neg hq] at h
        exact ih _ e h

/-- Counterexample for C5.  An order with two lines for the same book
(stock 1, each line requesting 1) passes every advisory check — each
line is checked against the full stock — but the second decrement fails
inside the transaction, at atomic-commit time.  That failure is the
fixed error 'Stock validation failed during order processing. Please
try again.': it names no item, no available quantity and no requested
quantity, and the route maps it to HTTP 500, while an advisory-check
InsufficientStock failure names all three and maps to HTTP 400.  The
two shapes are therefore not the same. -/
theorem claim_c5_shape_cex :
    createOrder "u"
        { items := [{ bookId := "A", quantity := 1 }, { bookId := "A", quantity := 1 }] }
        (dbWith 1) = .error .stockValidationFailed ∧
    namesOffendingItem Err.stockValidationFailed = false ∧
    orderRouteStatus Err.stockValidationFailed = 500 ∧
    namesOffendingItem (Err.insufficientStock "Dune" 0 1) = true ∧
    orderRouteStatus (Err.insufficientStock "Dune" 0 1) = 400 := by
  exact ⟨rfl, rfl, by decide, rfl, by decide⟩

/-- C5 (amended): an InsufficientStock failure of `createOrder` can only
arise from the advisory check, and then it names the offending item's
title, its available stock and the requested quantity, with
available < requested; a commit-time decrement failure is instead the
fixed `stockValidationFailed` error, which names nothing and is mapped
by the orders route to HTTP 500. -/
theorem claim_c5_insufficient_shapes (u : String) (dto : CreateOrderDTO)
    (db : DB) (t : String) (a r : Int) :
    (createOrder u dto db = .error (.insufficientStock t a r) →
      a < r ∧ ∃ item ∈ dto.items, ∃ b, getBookById item.bookId db = some b ∧
        b.title = t ∧ b.stockQuantity = a ∧ item.quantity = r) ∧
    namesOffendingItem (Err.insufficientStock t a r) = true ∧
    namesOffendingItem Err.stockValidationFailed = false ∧
    orderRouteStatus Err.stockValidationFailed = 500 := by
  refine ⟨?_, rfl, rfl, by decide⟩
  intro h
  simp only [createOrder] at h
  by_cases hempty : dto.items.isEmpty
  · rw [if_pos hempty] at h; cases h
  · rw [if_neg hempty] at h
    cases hbuild : buildOrderItems dto.items db with
    | error e =>
      rw [hbuild] at h
      dsimp only at h
      cases h
      obtain ⟨item, hmem, b, hfind, ht, ha, hr, hlt⟩ :=
        buildOrderItems_insufficient_shape dto.items db t a r hbuild
      exact ⟨hlt, item, hmem, b, hfind, ht, ha, hr⟩
    | ok p =>
      obtain ⟨ois, total⟩ := p
      rw [hbuild] at h
      dsimp only at h
      cases hdec : decrementLoop ois db with
      | error e =>
        rw [hdec] at h
        dsimp only at h
        cases h
        have := decrementLoop_error_shape ois db _ hdec
        cases this
      | ok db1 =>
        rw [hdec] at h
        cases h

/-- Witness for C5 (amended): requesting 2 of book A with stock 1 fails
at the advisory check with the full diagnostic shape. -/
theorem claim_c5_insufficient_shapes_witness :
    (1 : Int) < 2 ∧ ∃ item ∈ ([{ bookId := "A", quantity := 2 }] : List CreateOrderItemDTO),
      ∃ b, getBookById item.bookId (dbWith 1) = some b ∧
        b.title = "Dune" ∧ b.stockQuantity = 1 ∧ item.quantity = 2 :=
  (claim_c5_insufficient_shapes "u" { items := [{ bookId := "A", quantity := 2 }] }
    (dbWith 1) "Dune" 1 2).1 rfl

/-! ### C10 -/

/-- C10: every successful registration through the public register
route creates the new user with role CUSTOMER — the route never reads a
`role` field from the body and `registerUser` hard-codes
`role: 'CUSTOMER'` — so no request body (including one carrying
`role := ADMIN`) can produce an ADMIN account. -/
theorem claim_c10_register_role_customer (body : RegisterBody) (db : DB)
    (u : User) (db' : DB) (h : registerRoute body db = .ok (u, db')) :
    u.role = .CUSTOMER ∧ db'.users = db.users ++ [u] ∧
    (∀ v ∈ db'.users, v ∈ db.users ∨ v.role = .CUSTOMER) := by
  simp only [registerRoute] at h
  by_cases h1 : body.name = "" ∨ body.email = "" ∨ body.password = ""
  · rw [if_pos h1] at h; cases h
  · rw [if_neg h1] at h
    by_cases h2 : ¬ emailFormatValid body.email
    · rw [if_pos h2] at h; cases h
    · rw [if_neg h2] at h
      by_cases h3 : body.password.length < 6
      · rw [if_pos h3] at h; cases h
      · rw [if_neg h3] at h
        simp only [registerUser] at h
        cases hfind : findUserByEmail (normalizeEmail body.email) db with
        | some v => rw [hfind] at h; cases h
        | none =>
          rw [hfind] at h
          dsimp only at h
          cases h
          refine ⟨rfl, rfl, ?_⟩
          intro v hv
          rcases List.mem_append.mp hv with hv' | hv'
          · exact Or.inl hv'
          · right
            rw [List.mem_singleton.mp hv']

/-- Witness for C10: a registration body explicitly carrying
`role := ADMIN` still yields a CUSTOMER account. -/
theorem claim_c10_witness :
    ∃ u db', registerRoute
        { name := "Jo", email := "jo@example.com", password := "secret1",
          role := some .ADMIN } DB.empty = .ok (u, db') ∧
      u.role = .CUSTOMER ∧ db'.users = DB.empty.users ++ [u] := by
  refine ⟨_, _, rfl, ?_⟩
  have h := claim_c10_register_role_customer
    { name := "Jo", email := "jo@example.com", password := "secret1",
      role := some .ADMIN } DB.empty _ _ rfl
  exact ⟨h.1, h.2.1⟩

/-! ### C6 -/

/-- C6: cancelling a freshly placed (hence PENDING) order as its owner
restores every book record — in particular every line item's stock — to
its pre-order value and sets the order's status to CANCELLED; calling
`cancelOrder` on the same order a second time fails with InvalidState
and changes nothing. -/
theorem claim_c6_cancel_roundtrip
    (u : String) (dto : CreateOrderDTO) (db : DB) (o : Order) (db1 : DB)
    (hfresh : findOrder db.nextId db = none)
    (hco : createOrder u dto db = .ok (o, db1)) :
    ∃ o' db2, cancelOrder o.id u db1 = .ok (o', db2) ∧
      o'.orderStatus = .CANCELLED ∧
      (∀ id, getBookById id db2 = getBookById id db) ∧
      findOrder o.id db2 = some o' ∧
      cancelOrder o.id u db2 = .error .cancelInvalidState ∧
      cancelOrderState o.id u db2 = db2 := by
  obtain ⟨ois, total, dbt, hbuild, hdec, ho, hdb1⟩ := createOrder_ok_anatomy hco
  obtain ⟨_, hall⟩ := buildOrderItems_ok_spec dto.items db ois total hbuild
  obtain ⟨hto, _, htn, _⟩ := decrementLoop_ok_frame ois db dbt hdec
  have hoid : o.id = db.nextId := by rw [ho, htn]
  -- the new order is found in db1
  have hfind1 : findOrder o.id db1 = some o := by
    rw [hdb1]
    show (dbt.orders ++ [o]).find? (fun x => x.id == o.id) = some o
    rw [List.find?_append, hto]
    have : db.orders.find? (fun x => x.id == o.id) = none := by
      have := hfresh
      rw [findOrder] at this
      rw [hoid]
      exact this
    rw [this]
    simp [List.find?]
  -- every line item's book is still present in db1
  have hpresent : ∀ it ∈ o.items, (getBookById it.bookId db1).isSome := by
    intro it hit
    rw [ho] at hit
    obtain ⟨item, _, b, hfindb, _, _, rfl⟩ := forall₂_mem_right hall it hit
    have hb1 : getBookById item.bookId db1 = getBookById item.bookId dbt := by
      rw [hdb1]
      rfl
    rw [hb1, decrementLoop_ok_getBookById ois db dbt hdec item.bookId, hfindb]
    simp
  obtain ⟨db2i, hinc⟩ := incrementLoop_ok_of_present o.items db1 hpresent
  have hstatus : o.orderStatus = .PENDING := by rw [ho]
  have howner : o.userId = u := by rw [ho]
  -- cancelOrder takes the success path
  have hcancel : cancelOrder o.id u db1
      = .ok ({ o with orderStatus := .CANCELLED },
             setOrder o.id { o with orderStatus := .CANCELLED } db2i) := by
    simp only [cancelOrder, hfind1]
    rw [if_neg (by rw [howner]; simp), if_neg (by rw [hstatus]; simp), hinc]
  refine ⟨{ o with orderStatus := .CANCELLED },
    setOrder o.id { o with orderStatus := .CANCELLED } db2i, hcancel, rfl,
    ?_, ?_, ?_, ?_⟩
  · -- stock (indeed the whole book record) is restored
    intro id
    have hset : getBookById id (setOrder o.id { o with orderStatus := .CANCELLED } db2i)
        = getBookById id db2i := rfl
    have hi := incrementLoop_ok_getBookById o.items db1 db2i hinc id
    have hd := decrementLoop_ok_getBookById ois db dbt hdec id
    have hb1 : getBookById id db1 = getBookById id dbt := by rw [hdb1]; rfl
    have hitems : o.items = ois := by rw [ho]
    rw [hset, hi, hb1, hd, hitems]
    cases hgb : getBookById id db with
    | none => rfl
    | some b =>
      dsimp only [Option.map]
      congr 1
      have : b.stockQuantity - qtySum ois id + qtySum ois id = b.stockQuantity := by
        omega
      simp [this]
  · -- the cancelled order is found with its new status
    refine findOrder_setOrder_self db2i o.id _ rfl ?_
    have := (incrementLoop_ok_frame o.items db1 db2i hinc).1
    rw [findOrder, this]
    rw [findOrder] at hfind1
    rw [hfind1]
    rfl
  · -- a second cancel fails with InvalidState
    have hfind2 : findOrder o.id (setOrder o.id { o with orderStatus := .CANCELLED } db2i)
        = some { o with orderStatus := .CANCELLED } := by
      refine findOrder_setOrder_self db2i o.id _ rfl ?_
      have := (incrementLoop_ok_frame o.items db1 db2i hinc).1
      rw [findOrder, this]
      rw [findOrder] at hfind1
      rw [hfind1]
      rfl
    simp only [cancelOrder, hfind2]
    rw [if_neg (by rw [howner]; simp)]
    rw [if_pos (by simp)]
  · -- and the failed call leaves the state unchanged
    have hfind2 : findOrder o.id (setOrder o.id { o with orderStatus := .CANCELLED } db2i)
        = some { o with orderStatus := .CANCELLED } := by
      refine findOrder_setOrder_self db2i o.id _ rfl ?_
      have := (incrementLoop_ok_frame o.items db1 db2i hinc).1
      rw [findOrder, this]
      rw [findOrder] at hfind1
      rw [hfind1]
      rfl
    simp only [cancelOrderState, cancelOrder, hfind2]
    rw [if_neg (by rw [howner]; simp)]
    rw [if_pos (by simp)]

/-- Witness for C6: place the two-line order of the C4 witness and
cancel it; the catalog returns to its initial state. -/
theorem claim_c6_witness :
    ∃ o' db2, cancelOrder 0 "u"
        (createOrderState "u"
          { items := [{ bookId := "A", quantity := 2 }, { bookId := "B", quantity := 1 }] }
          (dbTwo 5 10)) = .ok (o', db2) ∧
      o'.orderStatus = .CANCELLED ∧
      (∀ id, getBookById id db2 = getBookById id (dbTwo 5 10)) ∧
      cancelOrder 0 "u" db2 = .error .cancelInvalidState := by
  have h := claim_c6_cancel_roundtrip "u"
    { items := [{ bookId := "A", quantity := 2 }, { bookId := "B", quantity := 1 }] }
    (dbTwo 5 10) _ _ rfl rfl
  obtain ⟨o', db2, hcancel, hst, hbooks, _, hsecond, _⟩ := h
  exact ⟨o', db2, hcancel, hst, hbooks, hsecond⟩

/-! ### Post-state wrappers for the remaining operations -/

/-- The database state after a `POST /api/register` call. -/
def registerRouteState (body : RegisterBody) (db : DB) : DB :=
  match registerRoute body db with
  | .ok (_, db') => db'
  | .error _ => db

/-- The database state after a `POST /api/books` call. -/
def createBookRouteState (newId : String) (dto : CreateBookDTO) (db : DB) : DB :=
  match createBookRoute newId dto db with
  | .ok (_, db') => db'
  | .error _ => db

/-- The database state after a `PUT /api/books/[id]` call. -/
def updateBookRouteState (id : String) (dto : UpdateBookDTO) (db : DB) : DB :=
  match updateBookRoute id dto db with
  | .ok (_, db') => db'
  | .error _ => db

/-- The database state after a `deleteBook` call. -/
def deleteBookState (id : String) (db : DB) : DB :=
  match deleteBook id db with
  | .ok db' => db'
  | .error _ => db

/-! ### Shapes of the successful operations -/

theorem registerRoute_ok_shape {body : RegisterBody} {db : DB} {u : User}
    {db' : DB} (h : registerRoute body db = .ok (u, db')) :
    db'.books = db.books ∧ db'.orders = db.orders := by
  simp only [registerRoute] at h
  by_cases h1 : body.name = "" ∨ body.email = "" ∨ body.password = ""
  · rw [if_pos h1] at h; cases h
  · rw [if_neg h1] at h
    by_cases h2 : ¬ emailFormatValid body.email
    · rw [if_pos h2] at h; cases h
    · rw [if_neg h2] at h
      by_cases h3 : body.password.length < 6
      · rw [if_pos h3] at h; cases h
      · rw [if_neg h3] at h
        simp only [registerUser] at h
        cases hfind : findUserByEmail (normalizeEmail body.email) db with
        | some v => rw [hfind] at h; cases h
        | none =>
          rw [hfind] at h
          dsimp only at h
          cases h
          exact ⟨rfl, rfl⟩

theorem createBookRoute_ok_shape {newId : String} {dto : CreateBookDTO}
    {db : DB} {b : Book} {db' : DB}
    (h : createBookRoute newId dto db = .ok (b, db')) :
    db'.books = db.books ++ [b] ∧ db'.orders = db.orders ∧
      b.id = newId ∧ b.stockQuantity = dto.stockQuantity ∧
      0 ≤ dto.stockQuantity := by
  simp only [createBookRoute] at h
  by_cases h1 : dto.title = "" ∨ dto.genre = "" ∨ dto.isbn = "" ∨ dto.price = 0
  · rw [if_pos h1] at h; cases h
  · rw [if_neg h1] at h
    by_cases h2 : dto.price < 0
    · rw [if_pos h2] at h; cases h
    · rw [if_neg h2] at h
      by_cases h3 : dto.stockQuantity < 0
      · rw [if_pos h3] at h; cases h
      · rw [if_neg h3] at h
        simp only [createBook] at h
        cases hfind : getBookByIsbn dto.isbn db with
        | some v => rw [hfind] at h; cases h
        | none =>
          rw [hfind] at h
          dsimp only at h
          cases h
          exact ⟨rfl, rfl, rfl, rfl, by omega⟩

theorem applyBookUpdate_id (dto : UpdateBookDTO) (b : Book) :
    (applyBookUpdate dto b).id = b.id := rfl

theorem updateBookRoute_ok_shape {id : String} {dto : UpdateBookDTO}
    {db : DB} {b' : Book} {db' : DB}
    (h : updateBookRoute id dto db = .ok (b', db')) :
    db'.orders = db.orders ∧
      db'.books = db.books.map
        (fun b => if b.id == id then applyBookUpdate dto b else b) ∧
      (∀ s, dto.stockQuantity = some s → 0 ≤ s) := by
  simp only [updateBookRoute] at h
  by_cases h1 : dto.isEmpty
  · rw [if_pos h1] at h; cases h
  · rw [if_neg h1] at h
    by_cases h2 : (match dto.price with | some p => decide (p < 0) | none => false : Bool)
    · rw [if_pos h2] at h; cases h
    · rw [if_neg h2] at h
      by_cases h3 : (match dto.stockQuantity with | some s => decide (s < 0) | none => false : Bool)
      · rw [if_pos h3] at h; cases h
      · rw [if_neg h3] at h
        have hguard : ∀ s, dto.stockQuantity = some s → 0 ≤ s := by
          intro s hs
          rw [hs] at h3
          simp at h3
          omega
        simp only [updateBook] at h
        cases hfind : getBookById id db with
        | none => rw [hfind] at h; cases h
        | some existing =>
          rw [hfind] at h
          dsimp only at h
          by_cases hconf : (match dto.isbn with
            | some i => i ≠ existing.isbn ∧ (getBookByIsbn i db).isSome
            | none => false : Bool)
          · rw [if_pos hconf] at h; cases h
          · rw [if_neg hconf] at h
            cases h
            exact ⟨rfl, rfl, hguard⟩

theorem deleteBook_ok_shape {id : String} {db : DB} {db' : DB}
    (h : deleteBook id db = .ok db') :
    db'.books = db.books.filter (fun b => ¬ b.id == id) ∧
      db'.orders = db.orders ∧
      countOrderItemsForBook id db = 0 := by
  simp only [deleteBook] at h
  cases hfind : getBookById id db with
  | none => rw [hfind] at h; cases h
  | some b =>
    rw [hfind] at h
    dsimp only at h
    by_cases hcnt : countOrderItemsForBook id db > 0
    · rw [if_pos hcnt] at h; cases h
    · rw [if_neg hcnt] at h
      cases h
      exact ⟨rfl, rfl, by omega⟩

theorem countOrderItemsForBook_eq_zero {id : String} {db : DB}
    (h : countOrderItemsForBook id db = 0) :
    ∀ o ∈ db.orders, ∀ it ∈ o.items, ¬ it.bookId = id := by
  intro o ho it hit hcontra
  have hlen : (o.items.filter (fun it => it.bookId == id)).length = 0 := by
    have := List.sum_eq_zero_iff.mp h
    exact this _ (List.mem_map_of_mem _ ho)
  have : it ∈ o.items.filter (fun it => it.bookId == id) :=
    List.mem_filter.mpr ⟨hit, by simp [hcontra]⟩
  rw [List.length_eq_zero.mp hlen] at this
  cases this

theorem bookStockIncrement_nonneg (id : String) (q : Int) (db : DB)
    (hpos : ∀ b ∈ db.books, 0 ≤ b.stockQuantity) (hq : 0 ≤ q) :
    ∀ b ∈ (bookStockIncrement id q db).books, 0 ≤ b.stockQuantity := by
  intro b' hb'
  simp only [bookStockIncrement, List.mem_map] at hb'
  obtain ⟨x, hx, rfl⟩ := hb'
  have := hpos x hx
  split
  · dsimp only
    omega
  · exact this

theorem incrementLoop_ok_nonneg (items : List OrderItem) :
    ∀ (db db' : DB), (∀ it ∈ items, 0 ≤ it.quantity) →
      (∀ b ∈ db.books, 0 ≤ b.stockQuantity) →
      incrementLoop items db = .ok db' →
      ∀ b ∈ db'.books, 0 ≤ b.stockQuantity := by
  induction items with
  | nil =>
    intro db db' _ hpos h
    simp only [incrementLoop] at h
    cases h
    exact hpos
  | cons it rest ih =>
    intro db db' hq hpos h
    simp only [incrementLoop] at h
    cases hfind : getBookById it.bookId db with
    | none => rw [hfind] at h; cases h
    | some book =>
      rw [hfind] at h
      dsimp only at h
      refine ih _ _ (fun it' hit' => hq it' (List.mem_cons_of_mem _ hit')) ?_ h
      exact bookStockIncrement_nonneg _ _ _ hpos (hq it (List.mem_cons_self _ _))

theorem cancelOrder_ok_shape {oid : Nat} {u : String} {db : DB} {o' : Order}
    {db2 : DB} (h : cancelOrder oid u db = .ok (o', db2)) :
    ∃ o db2i, findOrder oid db = some o ∧ o.userId = u ∧
      o.orderStatus = .PENDING ∧ incrementLoop o.items db = .ok db2i ∧
      o' = { o with orderStatus := .CANCELLED } ∧
      db2 = setOrder oid { o with orderStatus := .CANCELLED } db2i := by
  simp only [cancelOrder] at h
  cases hfind : findOrder oid db with
  | none => rw [hfind] at h; cases h
  | some o =>
    rw [hfind] at h
    dsimp only at h
    by_cases howner : o.userId ≠ u
    · rw [if_pos howner] at h; cases h
    · rw [if_neg howner] at h
      by_cases hst : o.orderStatus ≠ OrderStatus.PENDING
      · rw [if_pos hst] at h; cases h
      · rw [if_neg hst] at h
        cases hinc : incrementLoop o.items db with
        | error e => rw [hinc] at h; cases h
        | ok db2i =>
          rw [hinc] at h
          dsimp only at h
          cases h
          exact ⟨o, db2i, rfl, by push_neg at howner; exact howner,
            by push_neg at hst; exact hst, hinc, rfl, rfl⟩

theorem updateOrderStatus_ok_shape {oid : Nat} {status : OrderStatus}
    {db : DB} {o' : Order} {db' : DB}
    (h : updateOrderStatus oid status db = .ok (o', db')) :
    ∃ o, findOrder oid db = some o ∧
      o' = { o with orderStatus := status } ∧
      db' = setOrder oid { o with orderStatus := status } db := by
  simp only [updateOrderStatus] at h
  cases hfind : findOrder oid db with
  | none => rw [hfind] at h; cases h
  | some o =>
    rw [hfind] at h
    dsimp only at h
    cases h
    exact ⟨o, rfl, rfl, rfl⟩

/-- Transfer "a book with this id exists" along an equality of id
lists. -/
theorem exists_book_of_ids_eq {books1 books2 : List Book}
    (hids : books2.map (fun b => b.id) = books1.map (fun b => b.id))
    (x : String) (h : ∃ b ∈ books1, b.id = x) : ∃ b ∈ books2, b.id = x := by
  obtain ⟨b, hb, hbid⟩ := h
  have : x ∈ books2.map (fun b => b.id) := by
    rw [hids]
    exact hbid ▸ List.mem_map_of_mem _ hb
  obtain ⟨b', hb', hbid'⟩ := List.mem_map.mp this
  exact ⟨b', hb', hbid'⟩

theorem updateBook_map_ids (id : String) (dto : UpdateBookDTO) (books : List Book) :
    (books.map (fun b => if b.id == id then applyBookUpdate dto b else b)).map
        (fun b => b.id) = books.map (fun b => b.id) := by
  simp only [List.map_map]
  refine List.map_congr_left (fun b _ => ?_)
  simp only [Function.comp]
  split <;> rfl

/-! ### The system's step relation and the stock invariant -/

/-- One API operation, as the surrounding routes expose them (route-level
validation included).  The fresh-id side condition on `createBook` models
the database's id generator (cuid) never colliding with an existing id. -/
inductive Step : DB → DB → Prop where
  | register (body : RegisterBody) (db : DB) :
      Step db (registerRouteState body db)
  | createBook (newId : String) (dto : CreateBookDTO) (db : DB)
      (hfresh : ∀ b ∈ db.books, ¬ b.id = newId) :
      Step db (createBookRouteState newId dto db)
  | updateBook (id : String) (dto : UpdateBookDTO) (db : DB) :
      Step db (updateBookRouteState id dto db)
  | deleteBook (id : String) (db : DB) :
      Step db (deleteBookState id db)
  | placeOrder (u : String) (dto : CreateOrderDTO) (db : DB) :
      Step db (createOrderState u dto db)
  | cancelOrder (oid : Nat) (u : String) (db : DB) :
      Step db (cancelOrderState oid u db)
  | updateOrderStatus (oid : Nat) (st : OrderStatus) (db : DB) :
      Step db (updateOrderStatusState oid st db)

/-- States reachable from the empty database through API operations. -/
def Reachable (db : DB) : Prop :=
  Relation.ReflTransGen Step DB.empty db

/-- The system invariant: stock is never negative, book ids are unique
(the schema's `@id`), every stored line item has a positive quantity,
and every stored line item references an existing book. -/
def Inv (db : DB) : Prop :=
  (∀ b ∈ db.books, 0 ≤ b.stockQuantity) ∧
  (db.books.map (fun b => b.id)).Nodup ∧
  (∀ o ∈ db.orders, ∀ it ∈ o.items, 0 < it.quantity) ∧
  (∀ o ∈ db.orders, ∀ it ∈ o.items, ∃ b ∈ db.books, b.id = it.bookId)

theorem inv_empty : Inv DB.empty := by
  refine ⟨?_, ?_, ?_, ?_⟩ <;> simp [DB.empty]

theorem inv_register (body : RegisterBody) (db : DB) (h : Inv db) :
    Inv (registerRouteState body db) := by
  cases hr : registerRoute body db with
  | error e => simpa [registerRouteState, hr] using h
  | ok p =>
    obtain ⟨u, db'⟩ := p
    obtain ⟨hb, ho⟩ := registerRoute_ok_shape hr
    obtain ⟨h1, h2, h3, h4⟩ := h
    have hst : registerRouteState body db = db' := by
      simp [registerRouteState, hr]
    rw [hst]
    exact ⟨by rw [hb]; exact h1, by rw [hb]; exact h2, by rw [ho]; exact h3,
      by rw [hb, ho]; exact h4⟩

theorem inv_createBook (newId : String) (dto : CreateBookDTO) (db : DB)
    (hfresh : ∀ b ∈ db.books, ¬ b.id = newId) (h : Inv db) :
    Inv (createBookRouteState newId dto db) := by
  cases hr : createBookRoute newId dto db with
  | error e => simpa [createBookRouteState, hr] using h
  | ok p =>
    obtain ⟨b, db'⟩ := p
    obtain ⟨hb, ho, hid, hstock, hpos⟩ := createBookRoute_ok_shape hr
    obtain ⟨h1, h2, h3, h4⟩ := h
    have hst : createBookRouteState newId dto db = db' := by
      simp [createBookRouteState, hr]
    rw [hst]
    refine ⟨?_, ?_, ?_, ?_⟩
    · intro x hx
      rw [hb] at hx
      rcases List.mem_append.mp hx with hx' | hx'
      · exact h1 x hx'
      · rw [List.mem_singleton.mp hx', hstock]
        exact hpos
    · rw [hb, List.map_append]
      refine List.nodup_append.mpr ⟨h2, List.nodup_singleton _, ?_⟩
      intro a ha hb'
      simp only [List.map_cons, List.map_nil, List.mem_singleton] at hb'
      obtain ⟨x, hx, hxa⟩ := List.mem_map.mp ha
      rw [hb', hid] at hxa
      exact hfresh x hx hxa
    · intro o ho' it hit
      rw [ho] at ho'
      exact h3 o ho' it hit
    · intro o ho' it hit
      rw [ho] at ho'
      rw [hb]
      obtain ⟨bk, hbk, hbkid⟩ := h4 o ho' it hit
      exact ⟨bk, List.mem_append_left _ hbk, hbkid⟩

theorem applyBookUpdate_stock (dto : UpdateBookDTO) (b : Book) :
    (applyBookUpdate dto b).stockQuantity
      = dto.stockQuantity.getD b.stockQuantity := rfl

theorem inv_updateBook (id : String) (dto : UpdateBookDTO) (db : DB)
    (h : Inv db) : Inv (updateBookRouteState id dto db) := by
  cases hr : updateBookRoute id dto db with
  | error e => simpa [updateBookRouteState, hr] using h
  | ok p =>
    obtain ⟨b', db'⟩ := p
    obtain ⟨ho, hb, hguard⟩ := updateBookRoute_ok_shape hr
    obtain ⟨h1, h2, h3, h4⟩ := h
    have hst : updateBookRouteState id dto db = db' := by
      simp [updateBookRouteState, hr]
    rw [hst]
    refine ⟨?_, ?_, ?_, ?_⟩
    · intro x hx
      rw [hb] at hx
      obtain ⟨y, hy, rfl⟩ := List.mem_map.mp hx
      split
      · rw [applyBookUpdate_stock]
        cases hs : dto.stockQuantity with
        | none => simpa [hs] using h1 y hy
        | some s => simpa [hs] using hguard s hs
      · exact h1 y hy
    · rw [hb, updateBook_map_ids]
      exact h2
    · intro o ho' it hit
      rw [ho] at ho'
      exact h3 o ho' it hit
    · intro o ho' it hit
      rw [ho] at ho'
      rw [hb]
      exact exists_book_of_ids_eq (updateBook_map_ids id dto db.books) _
        (h4 o ho' it hit)

theorem inv_deleteBook (id : String) (db : DB) (h : Inv db) :
    Inv (deleteBookState id db) := by
  cases hr : deleteBook id db with
  | error e => simpa [deleteBookState, hr] using h
  | ok db' =>
    obtain ⟨hb, ho, hcnt⟩ := deleteBook_ok_shape hr
    obtain ⟨h1, h2, h3, h4⟩ := h
    have hst : deleteBookState id db = db' := by
      simp [deleteBookState, hr]
    rw [hst]
    refine ⟨?_, ?_, ?_, ?_⟩
    · intro x hx
      rw [hb] at hx
      exact h1 x (List.mem_of_mem_filter hx)
    · rw [hb]
      exact h2.sublist (List.Sublist.map _ (List.filter_sublist _))
    · intro o ho' it hit
      rw [ho] at ho'
      exact h3 o ho' it hit
    · intro o ho' it hit
      rw [ho] at ho'
      obtain ⟨bk, hbk, hbkid⟩ := h4 o ho' it hit
      have hne : ¬ it.bookId = id := countOrderItemsForBook_eq_zero hcnt o ho' it hit
      rw [hb]
      refine ⟨bk, List.mem_filter.mpr ⟨hbk, ?_⟩, hbkid⟩
      simp [hbkid, hne]

theorem inv_createOrder (u : String) (dto : CreateOrderDTO) (db : DB)
    (h : Inv db) : Inv (createOrderState u dto db) := by
  cases hr : createOrder u dto db with
  | error e => simpa [createOrderState, hr] using h
  | ok p =>
    obtain ⟨o, db'⟩ := p
    obtain ⟨ois, total, dbt, hbuild, hdec, ho, hdb'⟩ := createOrder_ok_anatomy hr
    obtain ⟨_, hall⟩ := buildOrderItems_ok_spec dto.items db ois total hbuild
    obtain ⟨h1, h2, h3, h4⟩ := h
    obtain ⟨hto, _, _, hids⟩ := decrementLoop_ok_frame ois db dbt hdec
    have hst : createOrderState u dto db = db' := by
      simp [createOrderState, hr]
    rw [hst, hdb']
    refine ⟨?_, ?_, ?_, ?_⟩
    · exact decrementLoop_ok_nonneg ois db dbt h2 h1 hdec
    · show (dbt.books.map (fun b => b.id)).Nodup
      rw [hids]
      exact h2
    · intro o2 ho2 it hit
      show 0 < it.quantity
      rcases List.mem_append.mp ho2 with ho2' | ho2'
      · exact h3 o2 (hto ▸ ho2') it hit
      · rw [List.mem_singleton.mp ho2', ho] at hit
        obtain ⟨item, _, b, _, hq, _, rfl⟩ := forall₂_mem_right hall it hit
        exact hq
    · intro o2 ho2 it hit
      show ∃ b ∈ dbt.books, b.id = it.bookId
      rcases List.mem_append.mp ho2 with ho2' | ho2'
      · exact exists_book_of_ids_eq hids _ (h4 o2 (hto ▸ ho2') it hit)
      · rw [List.mem_singleton.mp ho2', ho] at hit
        obtain ⟨item, _, b, hfind, _, _, rfl⟩ := forall₂_mem_right hall it hit
        refine exists_book_of_ids_eq hids _ ⟨b, ?_, ?_⟩
        · exact List.mem_of_find?_eq_some hfind
        · have := List.find?_some hfind
          simpa using this

theorem setOrder_orders_mem {oid : Nat} {o' : Order} {db : DB} {o2 : Order}
    (h : o2 ∈ (setOrder oid o' db).orders) :
    o2 = o' ∨ o2 ∈ db.orders := by
  simp only [setOrder, List.mem_map] at h
  obtain ⟨x, hx, rfl⟩ := h
  split
  · exact Or.inl rfl
  · exact Or.inr hx

theorem inv_cancelOrder (oid : Nat) (u : String) (db : DB) (h : Inv db) :
    Inv (cancelOrderState oid u db) := by
  cases hr : cancelOrder oid u db with
  | error e => simpa [cancelOrderState, hr] using h
  | ok p =>
    obtain ⟨o', db2⟩ := p
    obtain ⟨o, db2i, hfind, _, _, hinc, ho', hdb2⟩ := cancelOrder_ok_shape hr
    obtain ⟨h1, h2, h3, h4⟩ := h
    obtain ⟨horders, _, _, hids⟩ := incrementLoop_ok_frame o.items db db2i hinc
    have homem : o ∈ db.orders := List.mem_of_find?_eq_some hfind
    have hst : cancelOrderState oid u db = db2 := by
      simp [cancelOrderState, hr]
    rw [hst, hdb2]
    refine ⟨?_, ?_, ?_, ?_⟩
    · show ∀ b ∈ db2i.books, 0 ≤ b.stockQuantity
      refine incrementLoop_ok_nonneg o.items db db2i ?_ h1 hinc
      intro it hit
      have := h3 o homem it hit
      omega
    · show (db2i.books.map (fun b => b.id)).Nodup
      rw [hids]
      exact h2
    · intro o2 ho2 it hit
      rcases setOrder_orders_mem ho2 with rfl | ho2'
      · exact h3 o homem it hit
      · exact h3 o2 (horders ▸ ho2') it hit
    · intro o2 ho2 it hit
      show ∃ b ∈ db2i.books, b.id = it.bookId
      rcases setOrder_orders_mem ho2 with rfl | ho2'
      · exact exists_book_of_ids_eq hids _ (h4 o homem it hit)
      · exact exists_book_of_ids_eq hids _ (h4 o2 (horders ▸ ho2') it hit)

theorem inv_updateOrderStatus (oid : Nat) (st : OrderStatus) (db : DB)
    (h : Inv db) : Inv (updateOrderStatusState oid st db) := by
  cases hr : updateOrderStatus oid st db with
  | error e => simpa [updateOrderStatusState, hr] using h
  | ok p =>
    obtain ⟨o', db'⟩ := p
    obtain ⟨o, hfind, ho', hdb'⟩ := updateOrderStatus_ok_shape hr
    obtain ⟨h1, h2, h3, h4⟩ := h
    have homem : o ∈ db.orders := List.mem_of_find?_eq_some hfind
    have hst : updateOrderStatusState oid st db = db' := by
      simp [updateOrderStatusState, hr]
    rw [hst, hdb']
    refine ⟨h1, h2, ?_, ?_⟩
    · intro o2 ho2 it hit
      rcases setOrder_orders_mem ho2 with rfl | ho2'
      · exact h3 o homem it hit
      · exact h3 o2 ho2' it hit
    · intro o2 ho2 it hit
      rcases setOrder_orders_mem ho2 with rfl | ho2'
      · exact h4 o homem it hit
      · exact h4 o2 ho2' it hit

theorem step_preserves_inv (db db' : DB) (h : Inv db) (hstep : Step db db') :
    Inv db' := by
  cases hstep with
  | register body db => exact inv_register body db h
  | createBook newId dto db hfresh => exact inv_createBook newId dto db hfresh h
  | updateBook id dto db => exact inv_updateBook id dto db h
  | deleteBook id db => exact inv_deleteBook id db h
  | placeOrder u dto db => exact inv_createOrder u dto db h
  | cancelOrder oid u db => exact inv_cancelOrder oid u db h
  | updateOrderStatus oid st db => exact inv_updateOrderStatus oid st db h

theorem reachable_inv (db : DB) (h : Reachable db) : Inv db := by
  induction h with
  | refl => exact inv_empty
  | tail _ hstep ih => exact step_preserves_inv _ _ ih hstep

/-! ### C3 -/

/-- An admin `PUT /api/books/A` body that only sets `stockQuantity`. -/
def dtoStock7 : UpdateBookDTO :=
  { title := none, authors := none, genre := none, isbn := none,
    price := none, description := none, stockQuantity := some 7,
    imageUrl := none }

/-- Counterexample for C3's "stock is mutated only through the Inventory
Ledger decrement and increment operations": the admin book-update route
(`updateBook`) writes `stockQuantity` directly — here it changes book A's
stock from 5 to 7 without any ledger decrement or increment. -/
theorem claim_c3_stock_mutated_outside_ledger_cex :
    stockOf "A" (dbWith 5) = some 5 ∧
    stockOf "A" (updateBookRouteState "A" dtoStock7 (dbWith 5)) = some 7 ∧
    updateBookRouteState "A" dtoStock7 (dbWith 5) ≠ dbWith 5 :=
  ⟨rfl, rfl, by decide⟩

/-- C3 (amended): in every state reachable from the empty database
through the API operations, every catalog item's `stockQuantity` is
non-negative, and every single operation preserves this; stock is
however also written directly by the admin catalog operations
(`createBook`, `updateBook`), whose route validation keeps the written
value non-negative. -/
theorem claim_c3_stock_nonneg_invariant (db : DB) (h : Reachable db) :
    (∀ b ∈ db.books, 0 ≤ b.stockQuantity) ∧
    (∀ db', Step db db' → ∀ b ∈ db'.books, 0 ≤ b.stockQuantity) := by
  have hinv := reachable_inv db h
  exact ⟨hinv.1, fun db' hs => (step_preserves_inv db db' hinv hs).1⟩

/-- Witness for C3 (amended), at the initial state. -/
theorem claim_c3_witness :
    (∀ b ∈ DB.empty.books, 0 ≤ b.stockQuantity) ∧
    (∀ db', Step DB.empty db' → ∀ b ∈ db'.books, 0 ≤ b.stockQuantity) :=
  claim_c3_stock_nonneg_invariant DB.empty Relation.ReflTransGen.refl

/-! ### C9 -/

/-- C9: `deleteBook` fails (and changes nothing) whenever the book is
referenced by at least one order line item, and in every reachable state
every stored order line item's `bookId` references an existing book. -/
theorem claim_c9_delete_book_referential_integrity (id : String) (db : DB) :
    ((∃ o ∈ db.orders, ∃ it ∈ o.items, it.bookId = id) →
      (∃ e, deleteBook id db = .error e) ∧ deleteBookState id db = db) ∧
    (Reachable db → ∀ o ∈ db.orders, ∀ it ∈ o.items,
      ∃ b ∈ db.books, b.id = it.bookId) := by
  constructor
  · rintro ⟨o, ho, it, hit, hbid⟩
    have hcnt : 0 < countOrderItemsForBook id db := by
      have hmemf : it ∈ o.items.filter (fun it => it.bookId == id) :=
        List.mem_filter.mpr ⟨hit, by simp [hbid]⟩
      have hlen : 0 < (o.items.filter (fun it => it.bookId == id)).length :=
        List.length_pos.mpr (List.ne_nil_of_mem hmemf)
      calc 0 < (o.items.filter (fun it => it.bookId == id)).length := hlen
        _ ≤ countOrderItemsForBook id db :=
          List.single_le_sum (fun _ _ => Nat.zero_le _) _
            (List.mem_map_of_mem _ ho)
    cases hfind : getBookById id db with
    | none =>
      refine ⟨⟨.bookNotFound, ?_⟩, ?_⟩
      · simp [deleteBook, hfind]
      · simp [deleteBookState, deleteBook, hfind]
    | some b =>
      have hdel : deleteBook id db = .error .bookReferencedInOrders := by
        simp only [deleteBook, hfind]
        rw [if_pos hcnt]
      exact ⟨⟨.bookReferencedInOrders, hdel⟩, by simp [deleteBookState, hdel]⟩
  · intro hreach
    exact (reachable_inv db hreach).2.2.2

/-- Witness for C9: deleting book A, which the sample order references,
fails and leaves the database unchanged; the referential-integrity
invariant holds at the initial state. -/
theorem claim_c9_witness :
    ((∃ e, deleteBook "A" (dbOrder .PENDING) = .error e) ∧
      deleteBookState "A" (dbOrder .PENDING) = dbOrder .PENDING) ∧
    (∀ o ∈ DB.empty.orders, ∀ it ∈ o.items,
      ∃ b ∈ DB.empty.books, b.id = it.bookId) :=
  ⟨(claim_c9_delete_book_referential_integrity "A" (dbOrder .PENDING)).1
      ⟨orderWith .PENDING, by simp [dbOrder],
       { bookId := "A", quantity := 1, unitPrice := 10, subtotal := 10 },
       by simp [orderWith], rfl⟩,
   (claim_c9_delete_book_referential_integrity "A" DB.empty).2
      Relation.ReflTransGen.refl⟩

/-! ### C7: interleaved executions of `createOrder` on one item

N clients each run `createOrder` for the single line item
`{ bookId, quantity := full remaining stock }`.  Per the concurrency
model of the system (§5 of the spec and Prisma's semantics), a request
may suspend between its advisory `checkStockAvailability` read and its
`db.$transaction`, but the transaction itself (the decrement loop) is
one atomic step against the shared store.  Each process is therefore a
two-step program — the advisory check, then the atomic commit — and a
schedule is an arbitrary interleaving of those steps. -/

/-- Program counter of one in-flight `createOrder` call in the
full-remaining-stock scenario. -/
inductive PC where
  /-- before the advisory check -/
  | start
  /-- advisory check passed, before the atomic transaction -/
  | checked
  /-- committed: the order was placed -/
  | doneOk
  /-- rejected at the advisory check (InsufficientStock, named shape) -/
  | doneAdvFail
  /-- rejected at atomic-commit time (the transaction's stock
      re-validation failure) -/
  | doneCommitFail
  deriving DecidableEq, Repr

/-- Shared store plus each client's program counter. -/
structure CState (n : Nat) where
  db : DB
  procs : Fin n → PC

/-- The single line item of each request: the full remaining stock of
one book (the transaction phase reads only `bookId` and `quantity`). -/
def requestItem (bid : String) (q : Int) : OrderItem :=
  { bookId := bid, quantity := q, unitPrice := 0, subtotal := 0 }

/-- One scheduler step: run the next pending phase of client `i`.  The
advisory phase is the embedded `checkStockAvailability`; the commit
phase is the embedded transaction body `decrementLoop` on the one-line
order, applied atomically. -/
def c7step (bid : String) (q : Int) (s : CState n) (i : Fin n) : CState n :=
  match s.procs i with
  | .start =>
    match checkStockAvailability bid q s.db with
    | .ok true => { s with procs := Function.update s.procs i .checked }
    | _ => { s with procs := Function.update s.procs i .doneAdvFail }
  | .checked =>
    match decrementLoop [requestItem bid q] s.db with
    | .ok db' => { db := db', procs := Function.update s.procs i .doneOk }
    | .error _ => { s with procs := Function.update s.procs i .doneCommitFail }
  | _ => s

/-- Run a schedule (a list of client indices; each index executes its
next pending phase). -/
def c7run (bid : String) (q : Int) (s0 : CState n) (sched : List (Fin n)) :
    CState n :=
  sched.foldl (c7step bid q) s0

/-- All clients start before their advisory check, over the shared
initial store. -/
def c7init (n : Nat) (db0 : DB) : CState n :=
  { db := db0, procs := fun _ => .start }

/-- Scenario invariant: either nobody has committed (the store is
untouched and nobody has failed either), or exactly one client has
committed and the store records the single full-stock decrement. -/
def C7Inv (bid : String) (q : Int) (db0 : DB) (s : CState n) : Prop :=
  (s.db = db0 ∧ ∀ i, s.procs i = .start ∨ s.procs i = .checked) ∨
  (s.db = bookStockDecrement bid q db0 ∧ ∃! i, s.procs i = .doneOk)

theorem c7inv_init (bid : String) (q : Int) (db0 : DB) (n : Nat) :
    C7Inv bid q db0 (c7init n db0) :=
  Or.inl ⟨rfl, fun _ => Or.inl rfl⟩

theorem c7inv_step (bid : String) (q : Int) (db0 : DB) (b0 : Book)
    (hfind : getBookById bid db0 = some b0) (hq : b0.stockQuantity = q)
    (hpos : 0 < q) {n : Nat} (s : CState n) (i : Fin n)
    (h : C7Inv bid q db0 s) : C7Inv bid q db0 (c7step bid q s i) := by
  rcases h with ⟨hdb, hpc⟩ | ⟨hdb, j, hj, huniq⟩
  · -- nobody has committed yet: the store is db0
    rcases hpc i with hpi | hpi
    · -- advisory check: passes, since stock = q ≥ q
      have hchk : checkStockAvailability bid q s.db = .ok true := by
        rw [hdb, checkStockAvailability_of_some q hfind, hq]
        simp
      left
      refine ⟨?_, ?_⟩
      · simp only [c7step, hpi, hchk]
        exact hdb
      · intro j
        simp only [c7step, hpi, hchk]
        by_cases hij : j = i
        · subst hij
          simp [Function.update]
        · simp only [Function.update, dif_neg hij]
          exact hpc j
    · -- commit: succeeds, since stock = q ≥ q, and decrements to 0
      have hdec : decrementLoop [requestItem bid q] s.db
          = .ok (bookStockDecrement bid q db0) := by
        rw [hdb]
        simp only [decrementLoop, requestItem, hfind]
        rw [if_neg (by omega)]
      right
      refine ⟨?_, i, ?_, ?_⟩
      · simp only [c7step, hpi, hdec]
      · simp only [c7step, hpi, hdec]
        simp [Function.update]
      · intro j hj
        simp only [c7step, hpi, hdec] at hj
        by_cases hij : j = i
        · exact hij
        · rw [Function.update, dif_neg hij] at hj
          rcases hpc j with hpj | hpj <;> rw [hpj] at hj <;> cases hj
  · -- somebody has already committed: the store holds stock 0
    have hstock0 : getBookById bid s.db
        = some { b0 with stockQuantity := b0.stockQuantity - q } := by
      rw [hdb, getBookById_decrement_self, hfind]
      rfl
    cases hpi : s.procs i with
    | start =>
      -- the advisory check now fails: 0 = q - q < q
      have hchk : checkStockAvailability bid q s.db
          = .ok false := by
        rw [checkStockAvailability_of_some q hstock0]
        have : ¬ (b0.stockQuantity - q ≥ q) := by omega
        simp [this]
      right
      refine ⟨by simp only [c7step, hpi, hchk]; exact hdb, j, ?_, ?_⟩
      · simp only [c7step, hpi, hchk]
        have hij : ¬ j = i := by
          intro hcontra
          rw [hcontra, hpi] at hj
          cases hj
        rw [Function.update, dif_neg hij]
        exact hj
      · intro k hk
        simp only [c7step, hpi, hchk] at hk
        by_cases hik : k = i
        · rw [hik, Function.update, dif_pos rfl] at hk
          cases hk
        · rw [Function.update, dif_neg hik] at hk
          exact huniq k hk
    | checked =>
      -- the commit-time re-validation fails
      have hdec : decrementLoop [requestItem bid q] s.db
          = .error .stockValidationFailed := by
        simp only [decrementLoop, requestItem, hstock0]
        rw [if_pos (by show b0.stockQuantity - q < q; omega)]
      right
      refine ⟨by simp only [c7step, hpi, hdec]; exact hdb, j, ?_, ?_⟩
      · simp only [c7step, hpi, hdec]
        have hij : ¬ j = i := by
          intro hcontra
          rw [hcontra, hpi] at hj
          cases hj
        rw [Function.update, dif_neg hij]
        exact hj
      · intro k hk
        simp only [c7step, hpi, hdec] at hk
        by_cases hik : k = i
        · rw [hik, Function.update, dif_pos rfl] at hk
          cases hk
        · rw [Function.update, dif_neg hik] at hk
          exact huniq k hk
    | doneOk =>
      right
      exact ⟨by simp only [c7step, hpi]; exact hdb, j,
        by simp only [c7step, hpi]; exact hj,
        fun k hk => huniq k (by simpa only [c7step, hpi] using hk)⟩
    | doneAdvFail =>
      right
      exact ⟨by simp only [c7step, hpi]; exact hdb, j,
        by simp only [c7step, hpi]; exact hj,
        fun k hk => huniq k (by simpa only [c7step, hpi] using hk)⟩
    | doneCommitFail =>
      right
      exact ⟨by simp only [c7step, hpi]; exact hdb, j,
        by simp only [c7step, hpi]; exact hj,
        fun k hk => huniq k (by simpa only [c7step, hpi] using hk)⟩

theorem c7inv_run (bid : String) (q : Int) (db0 : DB) (b0 : Book)
    (hfind : getBookById bid db0 = some b0) (hq : b0.stockQuantity = q)
    (hpos : 0 < q) {n : Nat} (sched : List (Fin n)) :
    ∀ s : CState n, C7Inv bid q db0 s →
      C7Inv bid q db0 (c7run bid q s sched) := by
  induction sched with
  | nil => intro s h; exact h
  | cons i rest ih =>
    intro s h
    exact ih _ (c7inv_step bid q db0 b0 hfind hq hpos s i h)

/-- C7: for N ≥ 1 concurrent `placeOrder` calls that each request the
full remaining stock of one item, under every interleaving of their
advisory-check and atomic-commit phases in which all calls have
finished: exactly one call commits, every other call fails with a stock
failure (at the advisory check or at commit time), and the final stock
is the pre-test stock minus the one successful request's quantity. -/
theorem claim_c7_concurrent_one_winner
    (n : Nat) (hn : 0 < n) (bid : String) (db0 : DB) (b0 : Book) (q : Int)
    (hfind : getBookById bid db0 = some b0) (hq : b0.stockQuantity = q)
    (hpos : 0 < q) (sched : List (Fin n))
    (hdone : ∀ i, (c7run bid q (c7init n db0) sched).procs i ≠ .start ∧
      (c7run bid q (c7init n db0) sched).procs i ≠ .checked) :
    (∃! i, (c7run bid q (c7init n db0) sched).procs i = .doneOk) ∧
    (∀ i, (c7run bid q (c7init n db0) sched).procs i = .doneOk ∨
      (c7run bid q (c7init n db0) sched).procs i = .doneAdvFail ∨
      (c7run bid q (c7init n db0) sched).procs i = .doneCommitFail) ∧
    stockOf bid (c7run bid q (c7init n db0) sched).db
      = some (b0.stockQuantity - q) := by
  have hinv := c7inv_run bid q db0 b0 hfind hq hpos sched _
    (c7inv_init bid q db0 n)
  rcases hinv with ⟨_, hpc⟩ | ⟨hdb, hwin⟩
  · exfalso
    obtain ⟨h1, h2⟩ := hdone ⟨0, hn⟩
    rcases hpc ⟨0, hn⟩ with h | h
    · exact h1 h
    · exact h2 h
  · refine ⟨hwin, ?_, ?_⟩
    · intro i
      obtain ⟨h1, h2⟩ := hdone i
      cases h : (c7run bid q (c7init n db0) sched).procs i with
      | start => exact absurd h h1
      | checked => exact absurd h h2
      | doneOk => exact Or.inl rfl
      | doneAdvFail => exact Or.inr (Or.inl rfl)
      | doneCommitFail => exact Or.inr (Or.inr rfl)
    · rw [hdb]
      simp only [stockOf, getBookById_decrement_self, hfind]
      rfl

/-- Witness for C7: two clients racing for the full stock 3 of book A,
scheduled check–check–commit–commit: client 0 wins, client 1 fails at
commit time, and the final stock is 0 = 3 − 3. -/
theorem claim_c7_witness :
    (∃! i : Fin 2, (c7run "A" 3 (c7init 2 (dbWith 3))
      [0, 1, 0, 1]).procs i = .doneOk) ∧
    (∀ i : Fin 2, (c7run "A" 3 (c7init 2 (dbWith 3)) [0, 1, 0, 1]).procs i = .doneOk ∨
      (c7run "A" 3 (c7init 2 (dbWith 3)) [0, 1, 0, 1]).procs i = .doneAdvFail ∨
      (c7run "A" 3 (c7init 2 (dbWith 3)) [0, 1, 0, 1]).procs i = .doneCommitFail) ∧
    stockOf "A" (c7run "A" 3 (c7init 2 (dbWith 3)) [0, 1, 0, 1]).db
      = some ((bookAWith 3).stockQuantity - 3) :=
  claim_c7_concurrent_one_winner 2 (by omega) "A" (dbWith 3) (bookAWith 3) 3
    rfl rfl (by omega) [0, 1, 0, 1] (by decide)

end Bookstore
